import Mathlib

/-!
Verification of the RAM-storage safety and lifecycle subsystem of the
cpro-autotest repository (infra/proxmox.py, infra/ssh_utils.py,
infra/config.py, infra/deploy.py).

Python strings are modelled as Lean `String` (in this toolchain a wrapper
around `List Char`); the Python string primitives used by the code
(strip, splitlines, startswith, substring containment, split, replace,
lower, isdigit) are defined below on character lists, following the
CPython semantics the code relies on.  Remote command execution is
modelled by an oracle `String → HostReply` giving exit status, stdout and
stderr of each command; every modelled function returns the list of
commands it issues together with its result, so that temporal claims
about issued commands can be stated.
-/

namespace Cpro

/-- Characters Python's `str.strip()` removes (the `str.isspace` set). -/
def pyIsSpace (c : Char) : Bool :=
  c == ' ' || c == '\t' || c == '\n' || c == '\r' || c == '\x0b' || c == '\x0c' ||
  c == '\x1c' || c == '\x1d' || c == '\x1e' || c == '\x1f' || c == '\x85' ||
  c == '\xa0' || c == '\u1680' || ('\u2000' ≤ c && c ≤ '\u200a') ||
  c == '\u2028' || c == '\u2029' || c == '\u202f' || c == '\u205f' || c == '\u3000'

/-- Line boundaries recognised by Python's `str.splitlines()`. -/
def isLineBreak (c : Char) : Bool :=
  c == '\n' || c == '\r' || c == '\x0b' || c == '\x0c' ||
  c == '\x1c' || c == '\x1d' || c == '\x1e' || c == '\x85' ||
  c == '\u2028' || c == '\u2029'

/-- Boolean list-prefix test (Python `str.startswith` on character lists). -/
def prefixCh : List Char → List Char → Bool
  | [], _ => true
  | _ :: _, [] => false
  | a :: as, b :: bs => a == b && prefixCh as bs

/-- Boolean contiguous-substring test (Python's `in` operator on strings). -/
def containsCh : List Char → List Char → Bool
  | [], pat => prefixCh pat []
  | c :: rest, pat => prefixCh pat (c :: rest) || containsCh rest pat

/-- Python `str.strip()` on character lists. -/
def stripCh (s : List Char) : List Char :=
  ((s.dropWhile pyIsSpace).reverse.dropWhile pyIsSpace).reverse

/-- Helper for `splitlinesCh`: `acc` is the current, not yet terminated line. -/
def splitlinesAux : List Char → List Char → List (List Char)
  | acc, [] => if acc.isEmpty then [] else [acc]
  | acc, '\r' :: '\n' :: rest => acc :: splitlinesAux [] rest
  | acc, c :: rest =>
    if isLineBreak c then acc :: splitlinesAux [] rest
    else splitlinesAux (acc ++ [c]) rest

/-- Python `str.splitlines()` on character lists. -/
def splitlinesCh (s : List Char) : List (List Char) :=
  splitlinesAux [] s

/-- Python `"\n".join(lines)` on character lists. -/
def joinNLCh : List (List Char) → List Char
  | [] => []
  | [l] => l
  | l :: l2 :: rest => l ++ '\n' :: joinNLCh (l2 :: rest)

/-- Split a line at its first `':'` (Python `line.split(":", 1)` when a colon
is present). -/
def splitColon : List Char → List Char × List Char
  | [] => ([], [])
  | ':' :: rest => ([], rest)
  | c :: rest =>
    let p := splitColon rest
    (c :: p.1, p.2)

/-- Python `str.split(sep)` for a single-character separator, all occurrences. -/
def splitAll (sep : Char) : List Char → List (List Char)
  | [] => [[]]
  | c :: rest =>
    match splitAll sep rest with
    | [] => [[]]
    | h :: t => if c == sep then [] :: h :: t else (c :: h) :: t

/-- Fuel-driven helper for `pyReplace` (Python `str.replace`): replaces each
left-most non-overlapping occurrence of `pat`.  The fuel is the length of the
scanned list, which bounds the number of steps. -/
def replaceAux (pat rep : List Char) : Nat → List Char → List Char
  | 0, s => s
  | _ + 1, [] => []
  | fuel + 1, c :: rest =>
    if !pat.isEmpty && prefixCh pat (c :: rest) then
      rep ++ replaceAux pat rep fuel ((c :: rest).drop pat.length)
    else
      c :: replaceAux pat rep fuel rest

/-- Python `s.strip()`. -/
def pyStrip (s : String) : String := ⟨stripCh s.data⟩

/-- Python `s.splitlines()`. -/
def pySplitlines (s : String) : List String :=
  (splitlinesCh s.data).map (fun l => ⟨l⟩)

/-- Python `"\n".join(lines)`. -/
def strJoinNL (lines : List String) : String :=
  ⟨joinNLCh (lines.map String.data)⟩

/-- Python `s.startswith(pre)`. -/
def strStartsWith (s pre : String) : Bool := prefixCh pre.data s.data

/-- Python `pat in s` (contiguous substring containment). -/
def strContains (s pat : String) : Bool := containsCh s.data pat.data

/-- Python `s.replace(old, new)` (all non-overlapping occurrences). -/
def pyReplace (s old new : String) : String :=
  ⟨replaceAux old.data new.data s.data.length s.data⟩

/-- Python `s.lower()` (the code only compares ASCII answers). -/
def pyLower (s : String) : String := ⟨s.data.map Char.toLower⟩

/-- Python `s.isdigit()` restricted to ASCII digits, as used for VM ids. -/
def pyIsDigit (s : String) : Bool := !s.data.isEmpty && s.data.all Char.isDigit

/-- Python dict assignment `d[k] = v` for an insertion-ordered mapping with
unique keys: an existing key keeps its position and gets the new value, a new
key is appended. -/
def pyDictSet (d : List (String × String)) (k v : String) : List (String × String) :=
  if d.any (fun p => p.1 == k) then
    d.map (fun p => if p.1 == k then (k, v) else p)
  else
    d ++ [(k, v)]

/-- Embedding of `infra/proxmox.py, parse_vm_config`: parse a Proxmox VM
configuration blob into an insertion-ordered key/value mapping.  Blank lines
and `#`-comments are skipped; a line with a colon is split at the first colon
and both sides are stripped; lines without a colon are skipped. -/
def parse_vm_config (config_text : String) : List (String × String) :=
  (pySplitlines config_text).foldl
    (fun config rawLine =>
      let line := pyStrip rawLine
      if line == "" || strStartsWith line "#" then config
      else if strContains line ":" then
        let p := splitColon line.data
        pyDictSet config (pyStrip ⟨p.1⟩) (pyStrip ⟨p.2⟩)
      else config)
    []

/-- Embedding of `infra/proxmox.py, is_disk_key`. -/
def is_disk_key (key : String) : Bool :=
  ["scsi", "ide", "sata", "virtio", "efidisk"].any (fun p => strStartsWith key p)

/-- Embedding of `infra/proxmox.py, is_cdrom`. -/
def is_cdrom (value : String) : Bool :=
  strContains value "media=cdrom" || strContains value ".iso"

/-- The loop of `check_vm_safety`: scans the parsed entries, carrying the
`disk_found` flag, and returns `(disk_found, all_disks_safe)`; a disk on
another storage or failing the strict pattern sets `all_disks_safe = False`
and breaks (with `disk_found` already `True` for that disk). -/
def scanDisks (target_storage : String) : List (String × String) → Bool → Bool × Bool
  | [], disk_found => (disk_found, true)
  | (key, value) :: rest, disk_found =>
    if is_disk_key key then
      if is_cdrom value then
        scanDisks target_storage rest disk_found
      else if !(strStartsWith value (target_storage ++ ":")) then
        (true, false)
      else if !(strContains value "disk" && strContains value "size" && strContains value "qcow2") then
        (true, false)
      else
        scanDisks target_storage rest true
    else
      scanDisks target_storage rest disk_found

/-- Embedding of `infra/proxmox.py, check_vm_safety` (the `vm_id` argument is
only used for logging in the source and does not influence the verdict). -/
def check_vm_safety (vm_id config_text target_storage : String) : Bool :=
  let config := parse_vm_config config_text
  let r := scanDisks target_storage config false
  r.1 && r.2

/-- Abbreviation for the strict per-disk pattern of `check_vm_safety`:
value on the target storage and containing `disk`, `size` and `qcow2`. -/
def diskValueSafe (target_storage value : String) : Bool :=
  strStartsWith value (target_storage ++ ":") &&
    (strContains value "disk" && strContains value "size" && strContains value "qcow2")

/-- A parsed entry that counts as a real (non-CD-ROM) disk. -/
def realDisk (kv : String × String) : Bool := is_disk_key kv.1 && !is_cdrom kv.2

/-- Reply of the remote host to one command: exit status and captured
stdout/stderr streams (the transport of `client.exec_command`). -/
structure HostReply where
  exit_status : Nat
  stdout : String
  stderr : String

instance : DecidableEq (Except String String) := fun a b =>
  match a, b with
  | .ok x, .ok y =>
    if h : x = y then .isTrue (by rw [h]) else .isFalse (by intro hh; injection hh; contradiction)
  | .error x, .error y =>
    if h : x = y then .isTrue (by rw [h]) else .isFalse (by intro hh; injection hh; contradiction)
  | .ok _, .error _ => .isFalse (by intro hh; cases hh)
  | .error _, .ok _ => .isFalse (by intro hh; cases hh)

/-- A stdout line that the filter of `execute_ssh_command` drops: it contains
both `transferred` and a `%` character (qemu-img progress noise). -/
def progressLine (line : String) : Bool :=
  strContains line "transferred" && strContains line "%"

/-- The stdout post-processing of `infra/ssh_utils.py, execute_ssh_command`:
strip the raw stdout, then (when non-empty) drop every progress line, re-join
with newlines and strip again. -/
def processStdout (raw : String) : String :=
  let out := pyStrip raw
  if out == "" then out
  else
    pyStrip (strJoinNL ((pySplitlines out).filter fun line => !progressLine line))

/-- Embedding of `infra/ssh_utils.py, execute_ssh_command`: in dry-run mode no
command is issued and a fixed mock payload is returned; otherwise the command
is issued, stdout is post-processed by `processStdout`, and a non-zero exit
status raises (returns `Except.error`) unless `ignore_errors` is set.  The
first component of the result is the list of commands actually issued to the
host.  The `print_output` and `log_command` flags only affect logging in the
source and are kept for signature fidelity. -/
def execute_ssh_command (host : String → HostReply) (command : String)
    (dry_run print_output ignore_errors log_command : Bool) :
    List String × Except String String :=
  if dry_run then ([], .ok "MOCK_OUTPUT_JSON")
  else
    let r := host command
    let out_str := processStdout r.stdout
    let err_str := pyStrip r.stderr
    if r.exit_status != 0 && !ignore_errors then
      ([command], .error ("SSH Command failed: " ++ err_str))
    else
      ([command], .ok out_str)

/-- Contiguous-substring relation on character lists. -/
def SubCh (u s : List Char) : Prop := ∃ a b, s = a ++ u ++ b

/-- A character list free of line-break characters (as every element of a
`splitlinesCh` result is). -/
def BreakFree (l : List Char) : Prop := ∀ c ∈ l, isLineBreak c = false

/-- Concrete host used to witness the stdout-filtering theorem: its stdout
holds a qemu-img style progress line between two payload lines. -/
def hostC10 : String → HostReply :=
  fun _ => ⟨0, "abc\ntransferred 5%\ndef", ""⟩

/-- The `qm stop` command issued by `cleanup_ram_vms` (and `deploy_vm`). -/
def stopCmd (vm_id : String) : String := "qm stop " ++ vm_id ++ " --skiplock"

/-- The destroy-with-purge command issued by `cleanup_ram_vms`. -/
def destroyCmd (vm_id : String) : String :=
  "qm destroy " ++ vm_id ++ " --skiplock --purge"

/-- The config-fetch command issued by `cleanup_ram_vms`. -/
def catCmd (conf_path : String) : String := "cat " ++ conf_path

/-- The config-listing command issued by `cleanup_ram_vms`. -/
def lsConfCmd : String := "ls /etc/pve/qemu-server/*.conf"

/-- VM id derived from a config file path:
`conf_path.split("/")[-1].replace(".conf", "")`. -/
def vmIdOf (conf_path : String) : String :=
  pyReplace ⟨(splitAll '/' conf_path.data).getLastD []⟩ ".conf" ""

/-- Loop body of `infra/proxmox.py, cleanup_ram_vms` for one config file path:
returns the commands issued for that file.  A non-numeric id is skipped; the
config is fetched (a fetch failure is caught by the per-file `except` after
the command was already issued); an empty config is skipped; a safe config
triggers a best-effort stop then a destroy-with-purge (whose failure is also
caught by the per-file `except`, after being issued). -/
def cleanupVmFile (host : String → HostReply) (storage_name : String) (dry_run : Bool)
    (conf_path : String) : List String :=
  let vm_id := vmIdOf conf_path
  if !pyIsDigit vm_id then []
  else
    let r := execute_ssh_command host (catCmd conf_path) dry_run false false false
    r.1 ++
      match r.2 with
      | .error _ => []
      | .ok config_text =>
        if config_text == "" then []
        else if check_vm_safety vm_id config_text storage_name then
          let r2 := execute_ssh_command host (stopCmd vm_id) dry_run true true true
          let r3 := execute_ssh_command host (destroyCmd vm_id) dry_run true false true
          r2.1 ++ r3.1
        else []

/-- Embedding of `infra/proxmox.py, cleanup_ram_vms`, as the list of commands
issued to the host: list the config files (listing failure, absorbed by
`ignore_errors`/`try`, yields no files), return early when none, then process
each file in order via `cleanupVmFile`. -/
def cleanup_ram_vms (host : String → HostReply) (storage_name : String)
    (dry_run : Bool) : List String :=
  let r0 := execute_ssh_command host lsConfCmd dry_run false true true
  let files_out := match r0.2 with | .ok s => s | .error _ => ""
  if files_out == "" then r0.1
  else
    r0.1 ++ (pySplitlines (pyStrip files_out)).foldr
      (fun p acc => cleanupVmFile host storage_name dry_run p ++ acc) []

/-- The mount-listing query issued by `prepare_storage`
(`mount | grep ' <path> ' || true`). -/
def mountCheckCmd (p : String) : String :=
  "mount | grep \x27 " ++ p ++ " \x27 || true"

/-- The subdirectory-layout command issued by `prepare_storage`
(`mkdir -p <path>/{images,snippets,iso,dump}`). -/
def mkdirLayoutCmd (p : String) : String :=
  "mkdir -p " ++ p ++ "/\x7bimages,snippets,iso,dump\x7d"

/-- The mount-point creation command issued by `prepare_storage`. -/
def mkdirPathCmd (p : String) : String := "mkdir -p " ++ p

/-- The tmpfs mount command issued by `prepare_storage`. -/
def tmpfsMountCmd (p : String) (sz : Int) : String :=
  "mount -t tmpfs -o size=" ++ toString sz ++ "G tmpfs " ++ p

/-- The best-effort unmount command issued by `prepare_storage` on a forced
remount. -/
def umountCmd (p : String) : String := "umount " ++ p ++ " || true"

/-- Run a list of commands in order with the default execution flags, keeping
the issued commands and stopping at the first failure (which propagates). -/
def runSeq (host : String → HostReply) (dry : Bool) :
    List String → List String × Except String Unit
  | [] => ([], .ok ())
  | c :: rest =>
    let r := execute_ssh_command host c dry true false true
    match r.2 with
    | .error e => (r.1, .error e)
    | .ok _ =>
      let r2 := runSeq host dry rest
      (r.1 ++ r2.1, r2.2)

/-- Embedding of `infra/proxmox.py, prepare_storage`: query the mount state
(skipped in dry-run, treated as unmounted); if mounted and no forced remount,
only ensure the subdirectory layout (with command logging off) and return;
otherwise optionally unmount (forced remount), create the mount point, mount
the tmpfs of the requested size, and create the layout.  Returns the issued
commands and the overall outcome (any command failure propagates). -/
def prepare_storage (host : String → HostReply) (storage_path : String)
    (ram_size_gb : Int) (dry_run force_remount : Bool) :
    List String × Except String Unit :=
  let go : List String → Bool → List String × Except String Unit := fun tr0 is_mounted =>
    if is_mounted && !force_remount then
      let r := execute_ssh_command host (mkdirLayoutCmd storage_path) dry_run true false false
      (tr0 ++ r.1, match r.2 with | .error e => .error e | .ok _ => .ok ())
    else
      let cmds := (if force_remount then [umountCmd storage_path] else []) ++
        [mkdirPathCmd storage_path, tmpfsMountCmd storage_path ram_size_gb,
         mkdirLayoutCmd storage_path]
      let r := runSeq host dry_run cmds
      (tr0 ++ r.1, r.2)
  if dry_run then go [] false
  else
    let r0 := execute_ssh_command host (mountCheckCmd storage_path) false false false false
    match r0.2 with
    | .error e => (r0.1, .error e)
    | .ok out => go r0.1 (!(pyStrip out == ""))

/-- Modelled from the spec (§6 remote command surface, §4.3): minimal mount
semantics of the remote host for the storage commands — the spec specifies
the remote side only at this interface boundary.  The state records whether
`storage_path` is currently mounted. -/
structure MountState where
  mounted : Bool

/-- Modelled from the spec (§6): the host answers the mount-listing query with
a matching line exactly when the path is mounted, and every command succeeds. -/
def mountHost (st : MountState) (p : String) : String → HostReply := fun cmd =>
  if cmd == mountCheckCmd p then
    ⟨0, if st.mounted then "tmpfs mounted" else "", ""⟩
  else ⟨0, "", ""⟩

/-- Modelled from the spec (§6): effect of one issued command on the mount
state — a tmpfs mount command mounts the path, an umount command unmounts it,
anything else leaves it unchanged. -/
def applyMountCmd (st : MountState) (cmd : String) : MountState :=
  if strStartsWith cmd "mount -t tmpfs" then ⟨true⟩
  else if strStartsWith cmd "umount" then ⟨false⟩
  else st

/-- One non-dry `prepare_storage` run against the modelled mounted-state host:
issued commands, outcome, and resulting mount state. -/
def runPrepare (st : MountState) (p : String) (sz : Int) (force : Bool) :
    List String × Except String Unit × MountState :=
  let r := prepare_storage (mountHost st p) p sz false force
  (r.1, r.2, r.1.foldl applyMountCmd st)

/-- Concrete host used to witness the reclaimer theorem: one VM config file
whose single disk lives on the `ram` storage and matches the strict pattern. -/
def hostC2 : String → HostReply := fun cmd =>
  if cmd == lsConfCmd then ⟨0, "/etc/pve/qemu-server/100.conf", ""⟩
  else if cmd == catCmd "/etc/pve/qemu-server/100.conf" then
    ⟨0, "scsi0: ram:100/vm-100-disk-0.qcow2,size=10G", ""⟩
  else ⟨0, "", ""⟩

/-- One address record of the guest agent's `network-get-interfaces` reply,
with the address-family tag and address string the interface contract of the
spec (§6) guarantees. -/
structure GuestAddress where
  ip_address_type : String
  ip_address : String
deriving DecidableEq

/-- One interface record of the guest agent's reply: `iface.get("name")`
(absent allowed) and `iface.get("ip-addresses", [])`. -/
structure GuestInterface where
  name : Option String
  ip_addresses : List GuestAddress
deriving DecidableEq

/-- Inner loop of `wait_for_ip`: first IPv4 address starting with `10.` among
the address records, in order. -/
def findIpAddrs : List GuestAddress → Option String
  | [] => none
  | a :: rest =>
    if a.ip_address_type == "ipv4" then
      if strStartsWith a.ip_address "10." then some a.ip_address
      else findIpAddrs rest
    else findIpAddrs rest

/-- Outer loop of `wait_for_ip` over one parsed reply: skip the loopback
interface, return the first qualifying address of the remaining interfaces. -/
def findIp : List GuestInterface → Option String
  | [] => none
  | i :: rest =>
    if i.name == some "lo" then findIp rest
    else
      match findIpAddrs i.ip_addresses with
      | some ip => some ip
      | none => findIp rest

/-- All qualifying addresses of a reply, in scan order: non-loopback
interfaces, IPv4 family, `10.` prefix. -/
def qualifyingIps (data : List GuestInterface) : List String :=
  (data.filter fun i => !(i.name == some "lo")).flatMap fun i =>
    (i.ip_addresses.filter fun a =>
      a.ip_address_type == "ipv4" && strStartsWith a.ip_address "10.").map
      fun a => a.ip_address

/-- Polling loop of `infra/ssh_utils.py, wait_for_ip`.  `polls k` abstracts
the k-th guest-agent query pipeline (`execute_ssh_command` of
`qm guest cmd <id> network-get-interfaces` followed by `json.loads`): `none`
stands for empty output, a transport failure or a parse failure, all of which
the source swallows and retries.  Each non-returning iteration ends in a
3-second sleep, so the elapsed time when iteration `k` starts is `3 * k`; the
loop guard `time.time() - start_time < timeout` is checked before the body,
in particular before the dry-run short-circuit.  The second result component
counts the polls issued.  The fuel argument only makes the recursion
structural: `timeout.toNat` units can never be exhausted while the time guard
still holds. -/
def waitLoop (polls : Nat → Option (List GuestInterface)) (dry_run : Bool)
    (timeout : Int) : Nat → Nat → Option String × Nat
  | 0, k => (none, k)
  | fuel + 1, k =>
    if (3 * k : Int) < timeout then
      if dry_run then (some "10.DRY.RUN.IP", k)
      else
        match polls k with
        | none => waitLoop polls dry_run timeout fuel (k + 1)
        | some data =>
          match findIp data with
          | some ip => (some ip, k + 1)
          | none => waitLoop polls dry_run timeout fuel (k + 1)
    else (none, k)

/-- Embedding of `infra/ssh_utils.py, wait_for_ip`: result and number of
guest-agent polls issued. -/
def wait_for_ip (polls : Nat → Option (List GuestInterface)) (dry_run : Bool)
    (timeout : Int) : Option String × Nat :=
  waitLoop polls dry_run timeout timeout.toNat 0

/-- A poll oracle that never yields data (agent never answers). -/
def noPolls : Nat → Option (List GuestInterface) := fun _ => none

/-- One node's entry of the `nodes:` mapping of config.yaml, restricted to
the schema fields the code reads; `none` means the key is absent. -/
structure NodeConf where
  host : Option String
  user : Option String
  key_path : Option String
  storage : Option String
  storage_path : Option String
  ram_disk_size_gb : Option Int
deriving DecidableEq

/-- A Python dict is falsy exactly when empty; a node entry with no field set
models the empty mapping. -/
def NodeConf.isEmptyConf (c : NodeConf) : Bool :=
  c.host == none && c.user == none && c.key_path == none &&
    c.storage == none && c.storage_path == none && c.ram_disk_size_gb == none

/-- Result record of `infra/config.py, get_node_params`. -/
structure ConfigNodeParams where
  host : String
  user : String
  key : String
  storage : String
  storage_path : String
  ram_disk_size_gb : Option Int
deriving DecidableEq

/-- Result record of `infra/deploy.py, get_node_params` (the duplicated
non-validating version): hardcoded defaults for user, key path and storage,
and no storage_path at all; `host` stays optional because `.get("host")`
yields `None` when the key is absent. -/
structure DeployNodeParams where
  host : Option String
  user : String
  key : String
  storage : String
deriving DecidableEq

/-- Python `nodes.get(node_name)` on the parsed `nodes:` mapping. -/
def nodesLookup (nodes : List (String × NodeConf)) (name : String) :
    Option NodeConf :=
  match nodes.find? (fun q => q.1 == name) with
  | some q => some q.2
  | none => none

/-- Python `repr` of a list of strings, as f-string interpolation renders
`{missing}` and `{list(nodes.keys())}`. -/
def pyReprStrList (l : List String) : String :=
  "[" ++ String.intercalate ", " (l.map fun s => "\x27" ++ s ++ "\x27") ++ "]"

/-- The required-parameter names of `infra/config.py, get_node_params` that
are absent from the node entry, in the checking order. -/
def missingParams (c : NodeConf) : List String :=
  (if c.host == none then ["host"] else []) ++
  (if c.user == none then ["user"] else []) ++
  (if c.key_path == none then ["key_path"] else []) ++
  (if c.storage == none then ["storage"] else []) ++
  (if c.storage_path == none then ["storage_path"] else [])

/-- Embedding of `infra/config.py, get_node_params` (the validating version).
A missing node and a present-but-empty node entry are both falsy and raise
the not-found ValueError; otherwise the five required parameters are checked
and the missing ones are enumerated in the ValueError message; on success the
key path goes through `os.path.expanduser`, modelled as the `expanduser`
parameter.  When `missingParams` is empty all five fields are present, so the
`getD` defaults in the success record are never used. -/
def config_get_node_params (expanduser : String → String) (node_name : String)
    (nodes : List (String × NodeConf)) : Except String ConfigNodeParams :=
  let notFound : Except String ConfigNodeParams :=
    .error ("Node \x27" ++ node_name ++ "\x27 not found in config.yaml. " ++
      "Available nodes: " ++ pyReprStrList (nodes.map (fun q => q.1)))
  match nodesLookup nodes node_name with
  | none => notFound
  | some node_conf =>
    if node_conf.isEmptyConf then notFound
    else if !(missingParams node_conf).isEmpty then
      .error ("Node \x27" ++ node_name ++ "\x27 missing required parameters: " ++
        pyReprStrList (missingParams node_conf) ++ ". Please add them to config.yaml")
    else
      .ok ⟨node_conf.host.getD "", node_conf.user.getD "",
           expanduser (node_conf.key_path.getD ""), node_conf.storage.getD "",
           node_conf.storage_path.getD "", node_conf.ram_disk_size_gb⟩

/-- Embedding of `infra/deploy.py, get_node_params` (the duplicated version
actually used by `deploy_vm`): no required-parameter validation, hardcoded
defaults `root`, `~/.ssh/id_rsa` and `ram`, no storage_path. -/
def deploy_get_node_params (expanduser : String → String) (node_name : String)
    (nodes : List (String × NodeConf)) : Except String DeployNodeParams :=
  match nodesLookup nodes node_name with
  | none => .error ("Node \x27" ++ node_name ++ "\x27 not configured")
  | some node_conf =>
    if node_conf.isEmptyConf then
      .error ("Node \x27" ++ node_name ++ "\x27 not configured")
    else
      .ok ⟨node_conf.host, node_conf.user.getD "root",
           expanduser (node_conf.key_path.getD "~/.ssh/id_rsa"),
           node_conf.storage.getD "ram"⟩

/-- Environment of one deployment run: the remote host oracle, the guest-agent
poll oracle (see `waitLoop`), and the operator's answer to the
conflict-resolution prompt. -/
structure DeployEnv where
  host : String → HostReply
  polls : Nat → Option (List GuestInterface)
  answer : String

/-- The three ways `deploy_vm` terminates: the `{"id", "ip"}` result dict, the
bare `return` of the user-abort path (Python `None`), and `sys.exit(1)`. -/
inductive DeployOutcome
  | record (id : Int) (ip : Option String)
  | none_result
  | exit1
deriving DecidableEq

/-- Embedding of `infra/deploy.py, execute_ssh_command` — deploy.py's own
duplicated copy: same structure as the ssh_utils version but with no
`log_command` flag and no progress-line filtering of stdout. -/
def deploy_execute_ssh_command (host : String → HostReply) (command : String)
    (dry_run print_output ignore_errors : Bool) :
    List String × Except String String :=
  if dry_run then ([], .ok "MOCK_OUTPUT_JSON")
  else
    let r := host command
    let out_str := pyStrip r.stdout
    let err_str := pyStrip r.stderr
    if r.exit_status != 0 && !ignore_errors then
      ([command], .error ("SSH Command failed: " ++ err_str))
    else
      ([command], .ok out_str)

/-- `infra/deploy.py, wait_for_ip` — deploy.py's own copy of the poller
(lines 144-193) is logically identical to the ssh_utils version (its execute
copy differs only in logging and stdout filtering, both absorbed by the poll
oracle), so it is modelled by the same function. -/
def deploy_wait_for_ip : (Nat → Option (List GuestInterface)) → Bool → Int →
    Option String × Nat := wait_for_ip

/-- The VM status probe of `deploy_vm`. -/
def qmStatusCmd (id : Int) : String := "qm status " ++ toString id

/-- The storage-preparation step actually issued by `deploy_vm` (step 3): the
legacy bash scripts, not `prepare_storage`. -/
def setupCmd : String :=
  "bash -ic \x27source /root/.bashrc && purge_vm_disks && ./ramstor.sh\x27"

/-- The combined clone-and-configure command of `deploy_vm`. -/
def cloneCmd (template_id new_vm_id : Int) (snap_name storage : String)
    (memory : Int) : String :=
  "qm clone " ++ toString template_id ++ " " ++ toString new_vm_id ++
    " --snapname " ++ snap_name ++ " --storage " ++ storage ++
    " && qm set " ++ toString new_vm_id ++ " --cpu host --agent 1 --memory " ++
    toString memory

/-- The start command of `deploy_vm`. -/
def startCmd (id : Int) : String := "qm start " ++ toString id

/-- The guest-agent query issued by each poll of `wait_for_ip`. -/
def pollCmd (id : Int) : String :=
  "qm guest cmd " ++ toString id ++ " network-get-interfaces"

/-- Embedding of `infra/deploy.py, deploy_vm` from the point where the
configuration has been loaded (config loading is the excluded collaborator):
resolve node parameters with deploy.py's own `get_node_params` (ValueError ⇒
`sys.exit(1)`); connect (the paramiko transport is external: connecting is
modelled as succeeding whenever a host string is present, and as raising —
caught by the outer handler, `sys.exit(1)` — when the node has no host);
probe existence twice (the second, non-ignoring probe's failure is the
"absent" signal caught by the bare `except`); resolve a conflict by force or
by prompting (a non-`y` answer returns `None`); run the legacy bash
storage-preparation script; clone+configure; start; poll for the IP and
return the result record.  Any failing command in the last four steps
propagates to the outer handler and exits.  The first component is the list
of commands issued to the host, with each guest-agent poll counted once. -/
def deploy_vm (expanduser : String → String) (nodes : List (String × NodeConf))
    (target_node : String) (template_id new_vm_id memory : Int)
    (snap_name : String) (dry_run force : Bool) (env : DeployEnv) :
    List String × DeployOutcome :=
  match deploy_get_node_params expanduser target_node nodes with
  | .error _ => ([], .exit1)
  | .ok node_params =>
    if !dry_run && node_params.host == none then ([], .exit1)
    else
      let ex :=
        if dry_run then (([] : List String), true)
        else
          let r1 := deploy_execute_ssh_command env.host (qmStatusCmd new_vm_id)
            false false true
          let r2 := deploy_execute_ssh_command env.host (qmStatusCmd new_vm_id)
            false false false
          (r1.1 ++ r2.1, match r2.2 with | .ok _ => true | .error _ => false)
      let conflict : List String × Bool :=
        if ex.2 then
          if force then
            ((deploy_execute_ssh_command env.host (stopCmd (toString new_vm_id))
              dry_run false true).1, false)
          else if !dry_run && !(pyLower env.answer == "y") then ([], true)
          else
            ((deploy_execute_ssh_command env.host (stopCmd (toString new_vm_id))
              dry_run false true).1, false)
        else ([], false)
      if conflict.2 then (ex.1 ++ conflict.1, .none_result)
      else
        match deploy_execute_ssh_command env.host setupCmd dry_run true false with
        | (t3, .error _) => (ex.1 ++ conflict.1 ++ t3, .exit1)
        | (t3, .ok _) =>
          match deploy_execute_ssh_command env.host
            (cloneCmd template_id new_vm_id snap_name node_params.storage memory)
            dry_run true false with
          | (t4, .error _) => (ex.1 ++ conflict.1 ++ t3 ++ t4, .exit1)
          | (t4, .ok _) =>
            match deploy_execute_ssh_command env.host (startCmd new_vm_id)
              dry_run true false with
            | (t5, .error _) => (ex.1 ++ conflict.1 ++ t3 ++ t4 ++ t5, .exit1)
            | (t5, .ok _) =>
              let w := deploy_wait_for_ip env.polls dry_run 60
              (ex.1 ++ conflict.1 ++ t3 ++ t4 ++ t5 ++
                List.replicate w.2 (pollCmd new_vm_id),
               .record new_vm_id w.1)

/-- Node entry with all schema fields set, as the deploy test configures. -/
def fullConf : NodeConf :=
  ⟨some "1.2.3.4", some "root", some "~/.ssh/id_rsa", some "ram",
   some "/mnt/ram_test", some 42⟩

/-- Node entry with only the host set (missing the other four required
parameters). -/
def confOnlyHost : NodeConf := ⟨some "1.2.3.4", none, none, none, none, none⟩

/-- Deployment environment whose host answers every command with success and
empty output and whose guest agent never reports an address. -/
def envAllOk : DeployEnv := ⟨fun _ => ⟨0, "", ""⟩, noPolls, "y"⟩

/-- Deployment environment where the VM exists (status probe succeeds) and
the operator answers `n` at the prompt. -/
def envAbort : DeployEnv := ⟨fun _ => ⟨0, "status: stopped", ""⟩, noPolls, "n"⟩

/-! ## Theorems -/

theorem SubCh_refl (u : List Char) : SubCh u u := ⟨[], [], by simp⟩

theorem SubCh_trans {u v w : List Char} (h1 : SubCh u v) (h2 : SubCh v w) :
    SubCh u w := by
  obtain ⟨a, b, rfl⟩ := h1
  obtain ⟨c, d, rfl⟩ := h2
  exact ⟨c ++ a, b ++ d, by simp⟩

theorem SubCh_cons {u s : List Char} (c : Char) (h : SubCh u s) :
    SubCh u (c :: s) := by
  obtain ⟨a, b, rfl⟩ := h
  exact ⟨c :: a, b, rfl⟩

theorem SubCh_nil_iff {u : List Char} : SubCh u [] ↔ u = [] := by
  constructor
  · rintro ⟨a, b, hab⟩
    have := List.append_eq_nil.mp hab.symm
    exact (List.append_eq_nil.mp this.1).2
  · rintro rfl
    exact SubCh_refl []

theorem prefixCh_iff (p : List Char) : ∀ s, prefixCh p s = true ↔ ∃ t, s = p ++ t := by
  induction p with
  | nil => intro s; simp [prefixCh]
  | cons a as ih =>
    intro s
    cases s with
    | nil => simp [prefixCh]
    | cons b bs =>
      simp only [prefixCh, Bool.and_eq_true, beq_iff_eq, ih bs, List.cons_append,
        List.cons.injEq]
      constructor
      · rintro ⟨rfl, t, rfl⟩; exact ⟨t, rfl, rfl⟩
      · rintro ⟨t, rfl, rfl⟩; exact ⟨rfl, t, rfl⟩

theorem containsCh_iff (pat : List Char) : ∀ s, containsCh s pat = true ↔ SubCh pat s := by
  intro s
  induction s with
  | nil =>
    simp only [containsCh, prefixCh_iff, SubCh]
    constructor
    · rintro ⟨t, ht⟩
      exact ⟨[], t, by simpa using ht⟩
    · rintro ⟨a, b, hab⟩
      have h1 := List.append_eq_nil.mp hab.symm
      have h2 := List.append_eq_nil.mp h1.1
      exact ⟨b, by simp [h2.2, h1.2]⟩
  | cons c rest ih =>
    simp only [containsCh, Bool.or_eq_true, prefixCh_iff, ih]
    constructor
    · rintro (⟨t, ht⟩ | ⟨a, b, hab⟩)
      · exact ⟨[], t, by simpa using ht⟩
      · exact ⟨c :: a, b, by simp [hab]⟩
    · rintro ⟨a, b, hab⟩
      cases a with
      | nil => exact Or.inl ⟨b, by simpa using hab⟩
      | cons a0 as =>
        simp only [List.cons_append, List.cons.injEq] at hab
        exact Or.inr ⟨as, b, hab.2⟩

theorem strContains_mono {u v : List Char} (pat : String)
    (hsub : SubCh u v) (h : containsCh u pat.data = true) :
    containsCh v pat.data = true :=
  (containsCh_iff pat.data v).mpr
    (SubCh_trans ((containsCh_iff pat.data u).mp h) hsub)

theorem splitlinesAux_nil (acc : List Char) :
    splitlinesAux acc [] = if acc.isEmpty then [] else [acc] := rfl

theorem splitlinesAux_rn (acc rest : List Char) :
    splitlinesAux acc ('\r' :: '\n' :: rest) = acc :: splitlinesAux [] rest := rfl

set_option maxHeartbeats 2000000 in
theorem splitlinesAux_break (acc : List Char) (c : Char) (rest : List Char)
    (h1 : isLineBreak c = true)
    (h2 : ∀ rest2, c = '\r' → rest = '\n' :: rest2 → False) :
    splitlinesAux acc (c :: rest) = acc :: splitlinesAux [] rest := by
  rw [splitlinesAux.eq_3 acc c rest h2, if_pos h1]

theorem splitlinesAux_char (acc : List Char) (c : Char) (rest : List Char)
    (h1 : isLineBreak c = false) :
    splitlinesAux acc (c :: rest) = splitlinesAux (acc ++ [c]) rest := by
  have h2 : ∀ rest2, c = '\r' → rest = '\n' :: rest2 → False := by
    intro rest2 hc _
    subst hc
    exact absurd h1 (by decide)
  rw [splitlinesAux.eq_3 acc c rest h2, if_neg (by simp [h1])]

/-- The lines produced by `splitlinesAux` contain no line-break characters. -/
theorem splitlinesAux_breakFree : ∀ acc s, BreakFree acc →
    ∀ l ∈ splitlinesAux acc s, BreakFree l := by
  intro acc s
  induction acc, s using splitlinesAux.induct with
  | case1 acc hacc =>
    intro hbf l hl
    rw [splitlinesAux_nil, if_pos hacc] at hl
    cases hl
  | case2 acc hacc =>
    intro hbf l hl
    rw [splitlinesAux_nil, if_neg hacc] at hl
    simp only [List.mem_singleton] at hl
    exact hl ▸ hbf
  | case3 acc rest ih =>
    intro hbf l hl
    rw [splitlinesAux_rn] at hl
    rcases List.mem_cons.mp hl with rfl | hl
    · exact hbf
    · exact ih (by intro c hc; cases hc) l hl
  | case4 acc c rest hne hbr ih =>
    intro hbf l hl
    rw [splitlinesAux_break acc c rest hbr hne] at hl
    rcases List.mem_cons.mp hl with rfl | hl
    · exact hbf
    · exact ih (by intro c hc; cases hc) l hl
  | case5 acc c rest hne hbr ih =>
    intro hbf l hl
    rw [splitlinesAux_char acc c rest (by simpa using hbr)] at hl
    refine ih ?_ l hl
    intro d hd
    rcases List.mem_append.mp hd with hd | hd
    · exact hbf d hd
    · simp only [List.mem_singleton] at hd
      subst hd
      simpa using hbr

/-- Every line produced by `splitlinesAux acc s` is a contiguous substring of
`acc ++ s`. -/
theorem splitlinesAux_sub : ∀ acc s, ∀ l ∈ splitlinesAux acc s, SubCh l (acc ++ s) := by
  intro acc s
  induction acc, s using splitlinesAux.induct with
  | case1 acc hacc =>
    intro l hl
    rw [splitlinesAux_nil, if_pos hacc] at hl
    cases hl
  | case2 acc hacc =>
    intro l hl
    rw [splitlinesAux_nil, if_neg hacc] at hl
    simp only [List.mem_singleton] at hl
    subst hl
    exact ⟨[], [], by simp⟩
  | case3 acc rest ih =>
    intro l hl
    rw [splitlinesAux_rn] at hl
    rcases List.mem_cons.mp hl with rfl | hl
    · exact ⟨[], '\r' :: '\n' :: rest, by simp⟩
    · obtain ⟨a, b, hab⟩ := ih l hl
      simp only [List.nil_append] at hab
      exact ⟨acc ++ '\r' :: '\n' :: a, b, by simp [hab]⟩
  | case4 acc c rest hne hbr ih =>
    intro l hl
    rw [splitlinesAux_break acc c rest hbr hne] at hl
    rcases List.mem_cons.mp hl with rfl | hl
    · exact ⟨[], c :: rest, by simp⟩
    · obtain ⟨a, b, hab⟩ := ih l hl
      simp only [List.nil_append] at hab
      exact ⟨acc ++ c :: a, b, by simp [hab]⟩
  | case5 acc c rest hne hbr ih =>
    intro l hl
    rw [splitlinesAux_char acc c rest (by simpa using hbr)] at hl
    obtain ⟨a, b, hab⟩ := ih l hl
    exact ⟨a, b, by simpa using hab⟩

/-- Splitting an occurrence around an element not occurring in `u`. -/
theorem subCh_extend (u : List Char) (c : Char) (hc : c ∉ u) :
    ∀ us as y b, us ++ y = as ++ c :: b → (∀ d ∈ us, d ∈ u) →
      ∃ t, as = us ++ t ∧ y = t ++ c :: b := by
  intro us
  induction us with
  | nil =>
    intro as y b h _
    exact ⟨as, by simpa using h⟩
  | cons v us ih =>
    intro as y b h hmem
    cases as with
    | nil =>
      simp only [List.cons_append, List.nil_append, List.cons.injEq] at h
      exact absurd (h.1 ▸ hmem v (List.mem_cons_self v us)) hc
    | cons a0 as =>
      simp only [List.cons_append, List.cons.injEq] at h
      obtain ⟨t, ht1, ht2⟩ := ih as y b h.2 (fun d hd => hmem d (List.mem_cons_of_mem v hd))
      exact ⟨t, by simp [h.1, ht1], ht2⟩

/-- A contiguous substring of `a ++ c :: b` that avoids `c` lies entirely in
`a` or entirely in `b`. -/
theorem subCh_split (u : List Char) (c : Char) (hc : c ∉ u) :
    ∀ a b, SubCh u (a ++ c :: b) → SubCh u a ∨ SubCh u b := by
  intro a
  induction a with
  | nil =>
    intro b h
    obtain ⟨x, y, hxy⟩ := h
    cases x with
    | nil =>
      cases u with
      | nil => exact Or.inr ⟨[], b, by simp⟩
      | cons u0 us =>
        simp only [List.nil_append, List.cons_append, List.cons.injEq] at hxy
        exact absurd (hxy.1 ▸ List.mem_cons_self u0 us) (hxy.1 ▸ hc)
    | cons x0 xs =>
      simp only [List.nil_append, List.cons_append, List.cons.injEq] at hxy
      exact Or.inr ⟨xs, y, hxy.2⟩
  | cons a0 as ih =>
    intro b h
    obtain ⟨x, y, hxy⟩ := h
    cases x with
    | nil =>
      cases u with
      | nil => exact Or.inl ⟨[], a0 :: as, by simp⟩
      | cons u0 us =>
        simp only [List.nil_append, List.cons_append, List.cons.injEq] at hxy
        obtain ⟨h0, h1⟩ := hxy
        obtain ⟨t, ht1, _⟩ := subCh_extend (u0 :: us) c hc us as y b h1.symm
          (fun d hd => List.mem_cons_of_mem u0 hd)
        exact Or.inl ⟨[], t, by simp [h0, ht1]⟩
    | cons x0 xs =>
      simp only [List.cons_append, List.cons.injEq] at hxy
      rcases ih b ⟨xs, y, hxy.2⟩ with h | h
      · exact Or.inl (SubCh_cons a0 h)
      · exact Or.inr h

/-- A non-empty break-free contiguous substring of `acc ++ s` is contained in
one of the lines of `splitlinesAux acc s`. -/
theorem splitlinesAux_cover : ∀ acc s (u : List Char), u ≠ [] → BreakFree u →
    SubCh u (acc ++ s) → ∃ l ∈ splitlinesAux acc s, SubCh u l := by
  intro acc s
  induction acc, s using splitlinesAux.induct with
  | case1 acc hacc =>
    intro u hu hbf hsub
    rw [List.isEmpty_iff] at hacc
    subst hacc
    exact absurd (SubCh_nil_iff.mp (by simpa using hsub)) hu
  | case2 acc hacc =>
    intro u hu hbf hsub
    rw [splitlinesAux_nil, if_neg hacc]
    exact ⟨acc, List.mem_singleton.mpr rfl, by simpa using hsub⟩
  | case3 acc rest ih =>
    intro u hu hbf hsub
    rw [splitlinesAux_rn]
    have hcr : '\r' ∉ u := fun h => absurd (hbf '\r' h) (by decide)
    have hnl : '\n' ∉ u := fun h => absurd (hbf '\n' h) (by decide)
    rcases subCh_split u '\r' hcr acc ('\n' :: rest) hsub with h | h
    · exact ⟨acc, List.mem_cons_self _ _, h⟩
    · rcases subCh_split u '\n' hnl [] rest (by simpa using h) with h2 | h2
      · exact absurd (SubCh_nil_iff.mp h2) hu
      · obtain ⟨l, hl, hsl⟩ := ih u hu hbf (by simpa using h2)
        exact ⟨l, List.mem_cons_of_mem _ hl, hsl⟩
  | case4 acc c rest hne hbr ih =>
    intro u hu hbf hsub
    rw [splitlinesAux_break acc c rest hbr hne]
    have hcu : c ∉ u := fun h => absurd (hbf c h) (by simp [hbr])
    rcases subCh_split u c hcu acc rest hsub with h | h
    · exact ⟨acc, List.mem_cons_self _ _, h⟩
    · obtain ⟨l, hl, hsl⟩ := ih u hu hbf (by simpa using h)
      exact ⟨l, List.mem_cons_of_mem _ hl, hsl⟩
  | case5 acc c rest hne hbr ih =>
    intro u hu hbf hsub
    rw [splitlinesAux_char acc c rest (by simpa using hbr)]
    exact ih u hu hbf (by simpa using hsub)

/-- On break-free input `splitlinesAux` emits a single line. -/
theorem splitlinesAux_breakFree_eq : ∀ (a : List Char), BreakFree a → ∀ acc,
    splitlinesAux acc a = if (acc ++ a).isEmpty then [] else [acc ++ a] := by
  intro a
  induction a with
  | nil => intro _ acc; simp [splitlinesAux_nil]
  | cons c a ih =>
    intro hbf acc
    rw [splitlinesAux_char acc c a (hbf c (List.mem_cons_self c a))]
    rw [ih (fun d hd => hbf d (List.mem_cons_of_mem c hd)) (acc ++ [c])]
    simp

/-- Splitting after a break-free line followed by an explicit newline. -/
theorem splitlinesAux_append_nl : ∀ (a : List Char), BreakFree a → ∀ acc s,
    splitlinesAux acc (a ++ '\n' :: s) = (acc ++ a) :: splitlinesAux [] s := by
  intro a
  induction a with
  | nil =>
    intro _ acc s
    rw [List.nil_append, splitlinesAux_break acc '\n' s (by decide)
      (by intro r h; cases h), List.append_nil]
  | cons c a ih =>
    intro hbf acc s
    rw [List.cons_append, splitlinesAux_char acc c (a ++ '\n' :: s)
      (hbf c (List.mem_cons_self c a))]
    rw [ih (fun d hd => hbf d (List.mem_cons_of_mem c hd)) (acc ++ [c]) s]
    simp

/-- Every line of the newline-join of break-free lines is one of the lines. -/
theorem joinNLCh_lines : ∀ (L : List (List Char)), (∀ x ∈ L, BreakFree x) →
    ∀ l ∈ splitlinesCh (joinNLCh L), l ∈ L := by
  intro L
  induction L with
  | nil => intro _ l hl; cases hl
  | cons a rest ih =>
    intro hbf l hl
    cases rest with
    | nil =>
      rw [show joinNLCh [a] = a from rfl] at hl
      unfold splitlinesCh at hl
      rw [splitlinesAux_breakFree_eq a (hbf a (List.mem_cons_self a [])) []] at hl
      split at hl
      · cases hl
      · simp only [List.nil_append, List.mem_singleton] at hl
        exact hl ▸ List.mem_cons_self a []
    | cons b rest2 =>
      rw [show joinNLCh (a :: b :: rest2) = a ++ '\n' :: joinNLCh (b :: rest2) from rfl] at hl
      unfold splitlinesCh at hl
      rw [splitlinesAux_append_nl a (hbf a (List.mem_cons_self a _)) []] at hl
      rcases List.mem_cons.mp hl with rfl | hl
      · simpa using List.mem_cons_self a (b :: rest2)
      · exact List.mem_cons_of_mem a
          (ih (fun x hx => hbf x (List.mem_cons_of_mem a hx)) l hl)

theorem dropWhile_sub (p : Char → Bool) (s : List Char) :
    ∃ a, s = a ++ s.dropWhile p := by
  induction s with
  | nil => exact ⟨[], rfl⟩
  | cons c rest ih =>
    by_cases h : p c = true
    · obtain ⟨a, ha⟩ := ih
      rw [List.dropWhile_cons_of_pos h]
      exact ⟨c :: a, by simpa using ha⟩
    · rw [List.dropWhile_cons_of_neg h]
      exact ⟨[], rfl⟩

/-- Stripping yields a contiguous substring of the original list. -/
theorem stripCh_sub (s : List Char) : SubCh (stripCh s) s := by
  obtain ⟨a, ha⟩ := dropWhile_sub pyIsSpace s
  obtain ⟨b, hb⟩ := dropWhile_sub pyIsSpace (s.dropWhile pyIsSpace).reverse
  have hu : s.dropWhile pyIsSpace = stripCh s ++ b.reverse := by
    have h2 := congrArg List.reverse hb
    rw [List.reverse_reverse, List.reverse_append] at h2
    exact h2
  refine ⟨a, b.reverse, ?_⟩
  conv_lhs => rw [ha]
  rw [hu, List.append_assoc]

/-- No line of a post-processed stdout contains both `transferred` and `%`:
the filter removes such lines, and the final join/strip cannot manufacture a
new one. -/
theorem processStdout_noBad (raw : String) :
    ∀ l ∈ splitlinesCh (processStdout raw).data,
      (containsCh l "transferred".data && containsCh l "%".data) = false := by
  intro l hl
  unfold processStdout at hl
  by_cases hout : pyStrip raw == ""
  · rw [if_pos hout] at hl
    rw [show (pyStrip raw) = "" from eq_of_beq hout] at hl
    cases hl
  · rw [if_neg hout] at hl
    have hdata : (pyStrip (strJoinNL ((pySplitlines (pyStrip raw)).filter
        fun line => !progressLine line))).data =
        stripCh (joinNLCh (((pySplitlines (pyStrip raw)).filter
          fun line => !progressLine line).map String.data)) := rfl
    rw [hdata] at hl
    set L : List (List Char) :=
      ((pySplitlines (pyStrip raw)).filter fun line => !progressLine line).map String.data
      with hL
    rcases eq_or_ne l [] with rfl | hne
    · decide
    · have hbfL : ∀ x ∈ L, BreakFree x := by
        intro x hx
        rw [hL] at hx
        obtain ⟨line, hline, rfl⟩ := List.mem_map.mp hx
        have hmem := List.mem_of_mem_filter hline
        obtain ⟨l0, hl0, rfl⟩ := List.mem_map.mp hmem
        exact splitlinesAux_breakFree [] (pyStrip raw).data
          (by intro c hc; cases hc) l0 hl0
      have hsub1 : SubCh l (stripCh (joinNLCh L)) := by
        simpa using splitlinesAux_sub [] (stripCh (joinNLCh L)) l hl
      have hsub2 : SubCh l (joinNLCh L) := SubCh_trans hsub1 (stripCh_sub _)
      have hbfl : BreakFree l :=
        splitlinesAux_breakFree [] (stripCh (joinNLCh L)) (by intro c hc; cases hc) l hl
      obtain ⟨l2, hl2, hsub3⟩ :=
        splitlinesAux_cover [] (joinNLCh L) l hne hbfl (by simpa using hsub2)
      have hl2L : l2 ∈ L := joinNLCh_lines L hbfL l2 hl2
      rw [hL] at hl2L
      obtain ⟨line2, hline2, rfl⟩ := List.mem_map.mp hl2L
      have hq2 : progressLine line2 = false := by
        have h := List.of_mem_filter hline2
        simpa only [Bool.not_eq_true'] using h
      have hq2c : (containsCh line2.data "transferred".data &&
          containsCh line2.data "%".data) = false := hq2
      cases hA : containsCh l "transferred".data with
      | false => simp [hA]
      | true =>
        cases hB : containsCh l "%".data with
        | false => simp [hB]
        | true =>
          rw [strContains_mono "transferred" hsub3 hA,
            strContains_mono "%" hsub3 hB] at hq2c
          cases hq2c

/-- C10: for every non-dry-run invocation of `execute_ssh_command` that
returns, the returned string is the post-processed remote stdout (stripped,
with every line containing both `transferred` and `%` removed); consequently
no line of the returned text contains both substrings; and the returned text
can differ from the raw remote stdout when such progress lines are present. -/
theorem c10_execute_ssh_command_filters (host : String → HostReply) (command : String)
    (print_output ignore_errors log_command : Bool) :
    (∀ s, (execute_ssh_command host command false print_output ignore_errors
        log_command).2 = .ok s →
      s = processStdout (host command).stdout ∧
      ∀ line ∈ pySplitlines s,
        ¬(strContains line "transferred" = true ∧ strContains line "%" = true)) ∧
    processStdout "chunk 1 transferred (5%)\nok" ≠
      pyStrip "chunk 1 transferred (5%)\nok" := by
  constructor
  · intro s hs
    unfold execute_ssh_command at hs
    simp only [Bool.false_eq_true, if_false] at hs
    have heq : s = processStdout (host command).stdout := by
      by_cases hc : ((host command).exit_status != 0 && !ignore_errors) = true
      · rw [if_pos hc] at hs; cases hs
      · rw [if_neg hc] at hs
        injection hs with h
        exact h.symm
    refine ⟨heq, ?_⟩
    intro line hline
    subst heq
    obtain ⟨l, hl, rfl⟩ := List.mem_map.mp hline
    rintro ⟨hA, hB⟩
    have := processStdout_noBad (host command).stdout l hl
    rw [show strContains { data := l } "transferred" = containsCh l "transferred".data
        from rfl] at hA
    rw [show strContains { data := l } "%" = containsCh l "%".data from rfl] at hB
    rw [hA, hB] at this
    cases this
  · decide

/-- C10 witness: on a concrete host whose stdout contains a progress line,
the command returns and the returned text is the filtered stdout with no
progress line. -/
theorem c10_witness :
    (execute_ssh_command hostC10 "qemu-img convert" false true false true).2 =
      .ok "abc\ndef" ∧
    ("abc\ndef" = processStdout (hostC10 "qemu-img convert").stdout ∧
     ∀ line ∈ pySplitlines "abc\ndef",
       ¬(strContains line "transferred" = true ∧ strContains line "%" = true)) :=
  ⟨by decide,
   (c10_execute_ssh_command_filters hostC10 "qemu-img convert" true false true).1
     "abc\ndef" (by decide)⟩

/-- The loop of `check_vm_safety` computes: `disk_found` is the old flag or
the existence of a real disk, `all_disks_safe` is the strict pattern holding
for every real disk (the early `break` does not change either outcome). -/
theorem scanDisks_eq (target : String) (l : List (String × String)) (df : Bool) :
    scanDisks target l df =
      (df || l.any realDisk,
       l.all fun kv => !realDisk kv || diskValueSafe target kv.2) := by
  induction l generalizing df with
  | nil => simp [scanDisks]
  | cons kv rest ih =>
    obtain ⟨key, value⟩ := kv
    cases hdk : is_disk_key key with
    | false =>
      simp [scanDisks, hdk, realDisk, ih df]
    | true =>
      cases hcd : is_cdrom value with
      | true =>
        simp [scanDisks, hdk, hcd, realDisk, ih df]
      | false =>
        cases hpre : strStartsWith value (target ++ ":") with
        | false =>
          simp [scanDisks, hdk, hcd, hpre, realDisk, diskValueSafe]
        | true =>
          cases hpat : strContains value "disk" && strContains value "size" &&
              strContains value "qcow2" with
          | false =>
            simp [scanDisks, hdk, hcd, hpre, hpat, realDisk, diskValueSafe]
          | true =>
            simp [scanDisks, hdk, hcd, hpre, hpat, realDisk, diskValueSafe, ih true]

/-- Boolean characterization of `check_vm_safety`. -/
theorem check_vm_safety_eq (vm_id config_text target : String) :
    check_vm_safety vm_id config_text target =
      ((parse_vm_config config_text).any realDisk &&
       (parse_vm_config config_text).all
         fun kv => !realDisk kv || diskValueSafe target kv.2) := by
  simp only [check_vm_safety, scanDisks_eq]
  simp

/-- Propositional characterization of `check_vm_safety`. -/
theorem check_vm_safety_iff_prop (vm_id config_text target : String) :
    check_vm_safety vm_id config_text target = true ↔
      ((∃ kv ∈ parse_vm_config config_text,
          is_disk_key kv.1 = true ∧ is_cdrom kv.2 = false) ∧
       ∀ kv ∈ parse_vm_config config_text,
         is_disk_key kv.1 = true → is_cdrom kv.2 = false →
           (strStartsWith kv.2 (target ++ ":") = true ∧ strContains kv.2 "disk" = true ∧
            strContains kv.2 "size" = true ∧ strContains kv.2 "qcow2" = true)) := by
  rw [check_vm_safety_eq]
  simp only [Bool.and_eq_true, List.any_eq_true, List.all_eq_true]
  constructor
  · rintro ⟨⟨kv, hmem, hr⟩, hall⟩
    constructor
    · exact ⟨kv, hmem, by revert hr; simp [realDisk]⟩
    · intro kv hmem hdk hcd
      have h := hall kv hmem
      revert h
      simp [realDisk, diskValueSafe, hdk, hcd]
      tauto
  · rintro ⟨⟨kv, hmem, hdk, hcd⟩, hall⟩
    constructor
    · exact ⟨kv, hmem, by simp [realDisk, hdk, hcd]⟩
    · intro kv hmem
      by_cases hdk2 : is_disk_key kv.1 = true
      · by_cases hcd2 : is_cdrom kv.2 = true
        · simp [realDisk, hdk2, hcd2]
        · have h4 := hall kv hmem hdk2 (by simpa using hcd2)
          simp [realDisk, diskValueSafe, hdk2, hcd2, h4.1, h4.2.1, h4.2.2.1, h4.2.2.2]
      · simp [realDisk, hdk2]

/-- C1: for every vm id, configuration text and target storage name,
`check_vm_safety` returns true if and only if the parsed configuration
contains at least one non-CD-ROM disk entry and every non-CD-ROM disk entry
value starts with `<target_storage>:` and contains the substrings `disk`,
`size` and `qcow2`.  In particular (the left-to-right reading of the first
conjunct) a configuration with only CD-ROM entries, or with no disk-like
keys at all, yields `false`. -/
theorem c1_check_vm_safety_iff (vm_id config_text target_storage : String) :
    check_vm_safety vm_id config_text target_storage = true ↔
      ((∃ kv ∈ parse_vm_config config_text,
          is_disk_key kv.1 = true ∧ is_cdrom kv.2 = false) ∧
       ∀ kv ∈ parse_vm_config config_text,
         is_disk_key kv.1 = true → is_cdrom kv.2 = false →
           (strStartsWith kv.2 (target_storage ++ ":") = true ∧
            strContains kv.2 "disk" = true ∧
            strContains kv.2 "size" = true ∧
            strContains kv.2 "qcow2" = true)) :=
  check_vm_safety_iff_prop vm_id config_text target_storage

/-- C3 counterexample: the configuration `"memory: 1024"` has no non-CD-ROM
disk entry at all, so the claim's premise (every non-CD-ROM disk entry is on
the target storage and matches the strict pattern) holds vacuously, yet
`check_vm_safety` returns `false`: the claim as stated, with no further
precondition on the configuration, is false. -/
theorem c3_counterexample :
    ((parse_vm_config "memory: 1024").all
        fun kv => !(is_disk_key kv.1 && !is_cdrom kv.2) ||
          (strStartsWith kv.2 ("ram" ++ ":") && strContains kv.2 "disk" &&
           strContains kv.2 "size" && strContains kv.2 "qcow2")) = true ∧
      check_vm_safety "100" "memory: 1024" "ram" = false := by
  constructor
  · decide
  · decide

/-- C3 amended: for all VM configurations where every non-CD-ROM disk entry
is prefixed `<storage>:` and contains `disk`, `size` and `qcow2` as
substrings, and at least one non-CD-ROM disk entry exists,
`check_vm_safety` returns true. -/
theorem c3_check_vm_safety_complete (vm_id config_text target_storage : String)
    (hex : ∃ kv ∈ parse_vm_config config_text,
      is_disk_key kv.1 = true ∧ is_cdrom kv.2 = false)
    (hall : ∀ kv ∈ parse_vm_config config_text,
      is_disk_key kv.1 = true → is_cdrom kv.2 = false →
        (strStartsWith kv.2 (target_storage ++ ":") = true ∧
         strContains kv.2 "disk" = true ∧
         strContains kv.2 "size" = true ∧
         strContains kv.2 "qcow2" = true)) :
    check_vm_safety vm_id config_text target_storage = true :=
  (check_vm_safety_iff_prop vm_id config_text target_storage).mpr ⟨hex, hall⟩

/-- C3 amended, witness: a concrete single-disk configuration fully on the
target storage satisfies the hypotheses and is classified safe. -/
theorem c3_check_vm_safety_complete_witness :
    check_vm_safety "100" "scsi0: ram:100/vm-100-disk-0.qcow2,size=32G" "ram" = true :=
  c3_check_vm_safety_complete "100" "scsi0: ram:100/vm-100-disk-0.qcow2,size=32G" "ram"
    (by decide) (by decide)

/-- Locating an element in a concatenation: the element is in the left or the
right part, with the decomposition made explicit. -/
theorem append_locate {α : Type} (a : List α) :
    ∀ (b pre post : List α) (x : α), a ++ b = pre ++ x :: post →
      (∃ p2, a = pre ++ x :: p2 ∧ post = p2 ++ b) ∨
      (∃ p1, pre = a ++ p1 ∧ b = p1 ++ x :: post) := by
  induction a with
  | nil =>
    intro b pre post x h
    exact Or.inr ⟨pre, rfl, by simpa using h⟩
  | cons y as ih =>
    intro b pre post x h
    cases pre with
    | nil =>
      simp only [List.cons_append, List.nil_append] at h
      injection h with h1 h2
      exact Or.inl ⟨as, by simp [h1], h2.symm⟩
    | cons z pres =>
      simp only [List.cons_append, List.cons.injEq] at h
      obtain ⟨rfl, h2⟩ := h
      rcases ih b pres post x h2 with ⟨p2, hp1, hp2⟩ | ⟨p1, hp1, hp2⟩
      · exact Or.inl ⟨p2, by rw [hp1]; rfl, hp2⟩
      · exact Or.inr ⟨p1, by rw [hp1]; rfl, hp2⟩

/-- Two strings whose character data agree on a common prefix and then differ
are distinct. -/
theorem ne_of_data_common {a b : String} (common : List Char) {x y : Char}
    {as bs : List Char} (hx : a.data = common ++ x :: as)
    (hy : b.data = common ++ y :: bs) (hxy : x ≠ y) : a ≠ b := by
  intro h
  rw [h, hy] at hx
  have h2 := List.append_cancel_left hx
  injection h2 with h3 _
  exact hxy h3.symm

theorem destroyCmd_data (i : String) : (destroyCmd i).data =
    [] ++ 'q' :: ("m destroy ".data ++ (i.data ++ " --skiplock --purge".data)) := by
  show ("qm destroy " ++ i ++ " --skiplock --purge").data = _
  rw [String.data_append, String.data_append]
  simp

theorem destroyCmd_data_qm (i : String) : (destroyCmd i).data =
    "qm ".data ++ 'd' :: ("estroy ".data ++ (i.data ++ " --skiplock --purge".data)) := by
  show ("qm destroy " ++ i ++ " --skiplock --purge").data = _
  rw [String.data_append, String.data_append]
  simp

theorem catCmd_ne_destroyCmd (p i : String) : catCmd p ≠ destroyCmd i := by
  have hx : (catCmd p).data = [] ++ 'c' :: ("at ".data ++ p.data) := by
    show ("cat " ++ p).data = _
    rw [String.data_append]
    rfl
  exact ne_of_data_common [] hx (destroyCmd_data i) (by decide)

theorem lsConfCmd_ne_destroyCmd (i : String) : lsConfCmd ≠ destroyCmd i := by
  have hx : lsConfCmd.data =
      [] ++ 'l' :: "s /etc/pve/qemu-server/*.conf".data := rfl
  exact ne_of_data_common [] hx (destroyCmd_data i) (by decide)

theorem stopCmd_ne_destroyCmd (v i : String) : stopCmd v ≠ destroyCmd i := by
  have hx : (stopCmd v).data =
      "qm ".data ++ 's' :: ("top ".data ++ (v.data ++ " --skiplock".data)) := by
    show ("qm stop " ++ v ++ " --skiplock").data = _
    rw [String.data_append, String.data_append]
    simp
  exact ne_of_data_common "qm ".data hx (destroyCmd_data_qm i) (by decide)

theorem destroyCmd_inj {v i : String} (h : destroyCmd v = destroyCmd i) : v = i := by
  have hd := congrArg String.data h
  rw [destroyCmd, destroyCmd, String.data_append, String.data_append,
    String.data_append, String.data_append] at hd
  rw [List.append_assoc, List.append_assoc] at hd
  have h2 := List.append_cancel_left hd
  have h3 := List.append_cancel_right h2
  exact String.ext h3

/-- The mock payload returned by a dry-run command execution is never a safe
configuration (it parses to an empty mapping). -/
theorem mock_not_safe (vm_id storage : String) :
    check_vm_safety vm_id "MOCK_OUTPUT_JSON" storage = false := by
  rw [check_vm_safety_eq]
  rw [show parse_vm_config "MOCK_OUTPUT_JSON" = [] from by decide]
  rfl

/-- A non-dry-run command execution issues exactly its command. -/
theorem execute_fst (host : String → HostReply) (c : String) (po ig lg : Bool) :
    (execute_ssh_command host c false po ig lg).1 = [c] := by
  simp only [execute_ssh_command, Bool.false_eq_true, if_false]
  split <;> rfl

/-- A destroy command appears in the per-file command block only when the
fetched configuration is non-empty and classified safe for its id, and then
it sits exactly after the fetch and the stop command. -/
theorem cleanupVmFile_destroy (host : String → HostReply) (storage : String)
    (dry : Bool) (p i : String) (b1 b2 : List String)
    (h : cleanupVmFile host storage dry p = b1 ++ destroyCmd i :: b2) :
    (vmIdOf p = i ∧
     ∃ cfg, (execute_ssh_command host (catCmd p) dry false false false).2 = .ok cfg ∧
       cfg ≠ "" ∧ check_vm_safety i cfg storage = true) ∧
    b1 = [catCmd p, stopCmd i] ∧ b2 = [] := by
  simp only [cleanupVmFile] at h
  by_cases hdig : (!pyIsDigit (vmIdOf p)) = true
  · rw [if_pos hdig] at h
    exact absurd h.symm (by simp)
  · rw [if_neg hdig] at h
    cases hdry : dry with
    | true =>
      rw [hdry] at h
      rw [show execute_ssh_command host (catCmd p) true false false false =
        ([], .ok "MOCK_OUTPUT_JSON") from rfl] at h
      simp only [List.nil_append] at h
      rw [show ("MOCK_OUTPUT_JSON" == "") = false from rfl] at h
      rw [if_neg (by simp)] at h
      rw [mock_not_safe (vmIdOf p) storage] at h
      rw [if_neg (by simp)] at h
      exact absurd h.symm (by simp)
    | false =>
      rw [hdry] at h
      rw [execute_fst host (catCmd p) false false false] at h
      rcases hres : (execute_ssh_command host (catCmd p) false false false false).2 with e | cfg
      · rw [hres] at h
        simp only [List.append_nil] at h
        rcases b1 with _ | ⟨e1, b1r⟩
        · simp only [List.nil_append] at h
          injection h with h1 _
          exact absurd h1 (catCmd_ne_destroyCmd p i)
        · simp only [List.cons_append] at h
          injection h with _ h2
          exact absurd h2.symm (by simp)
      · rw [hres] at h
        simp only [] at h
        by_cases hempty : (cfg == "") = true
        · rw [if_pos hempty] at h
          simp only [List.append_nil] at h
          rcases b1 with _ | ⟨e1, b1r⟩
          · simp only [List.nil_append] at h
            injection h with h1 _
            exact absurd h1 (catCmd_ne_destroyCmd p i)
          · simp only [List.cons_append] at h
            injection h with _ h2
            exact absurd h2.symm (by simp)
        · rw [if_neg hempty] at h
          by_cases hsafe : check_vm_safety (vmIdOf p) cfg storage = true
          · rw [if_pos hsafe] at h
            rw [execute_fst host (stopCmd (vmIdOf p)) true true true] at h
            rw [execute_fst host (destroyCmd (vmIdOf p)) true false true] at h
            simp only [List.cons_append, List.nil_append, List.singleton_append] at h
            rcases b1 with _ | ⟨e1, _ | ⟨e2, _ | ⟨e3, b1r⟩⟩⟩
            · simp only [List.nil_append] at h
              injection h with h1 _
              exact absurd h1 (catCmd_ne_destroyCmd p i)
            · simp only [List.cons_append, List.nil_append] at h
              injection h with h1 h2
              injection h2 with h3 _
              exact absurd h3 (stopCmd_ne_destroyCmd (vmIdOf p) i)
            · simp only [List.cons_append] at h
              injection h with h1 h2
              injection h2 with h3 h4
              injection h4 with h5 h6
              have hvi : vmIdOf p = i := destroyCmd_inj h5
              refine ⟨⟨hvi, cfg, rfl, by simpa using hempty, hvi ▸ hsafe⟩, ?_, h6.symm⟩
              rw [← h1, ← h3, hvi]
            · simp only [List.cons_append] at h
              injection h with _ h2
              injection h2 with _ h4
              injection h4 with _ h6
              exact absurd h6.symm (by simp)
          · rw [if_neg hsafe] at h
            simp only [List.append_nil] at h
            rcases b1 with _ | ⟨e1, b1r⟩
            · simp only [List.nil_append] at h
              injection h with h1 _
              exact absurd h1 (catCmd_ne_destroyCmd p i)
            · simp only [List.cons_append] at h
              injection h with _ h2
              exact absurd h2.symm (by simp)

/-- Every destroy command in the folded per-file traces is justified by a safe
fetched config and immediately preceded by the matching stop command. -/
theorem cleanupFold_destroy (host : String → HostReply) (storage : String) (dry : Bool) :
    ∀ (files : List String) (pre post : List String) (i : String),
      files.foldr (fun p acc => cleanupVmFile host storage dry p ++ acc) [] =
        pre ++ destroyCmd i :: post →
      ((∃ p, vmIdOf p = i ∧
         ∃ cfg, (execute_ssh_command host (catCmd p) dry false false false).2 = .ok cfg ∧
           cfg ≠ "" ∧ check_vm_safety i cfg storage = true) ∧
       ∃ pre2, pre = pre2 ++ [stopCmd i]) := by
  intro files
  induction files with
  | nil =>
    intro pre post i h
    exact absurd h.symm (by simp)
  | cons p rest ih =>
    intro pre post i h
    rw [List.foldr_cons] at h
    rcases append_locate _ _ _ _ _ h with ⟨p2, hp1, _⟩ | ⟨p1, hp1, hp2⟩
    · obtain ⟨⟨hid, hcfg⟩, hb1, _⟩ := cleanupVmFile_destroy host storage dry p i pre p2 hp1
      exact ⟨⟨p, hid, hcfg⟩, ⟨[catCmd p], by simp [hb1]⟩⟩
    · obtain ⟨hj, pre2, hpre2⟩ := ih p1 post i hp2
      exact ⟨hj, cleanupVmFile host storage dry p ++ pre2,
        by rw [hp1, hpre2, List.append_assoc]⟩

/-- C2: during any run of `cleanup_ram_vms`, a destroy-with-purge command for
a VM id is issued only if the configuration text fetched for that id (the
result of `cat` on the config path from which the id was derived) was
non-empty and classified safe by `check_vm_safety` against the target storage
name, and every such destroy command is immediately preceded by a best-effort
stop command for the same id. -/
theorem c2_cleanup_destroy_requires_safety (host : String → HostReply)
    (storage_name : String) (dry_run : Bool) (pre post : List String) (i : String)
    (h : cleanup_ram_vms host storage_name dry_run = pre ++ destroyCmd i :: post) :
    ((∃ conf_path, vmIdOf conf_path = i ∧
       ∃ cfg, (execute_ssh_command host (catCmd conf_path) dry_run
           false false false).2 = .ok cfg ∧
         cfg ≠ "" ∧ check_vm_safety i cfg storage_name = true) ∧
     ∃ pre2, pre = pre2 ++ [stopCmd i]) := by
  unfold cleanup_ram_vms at h
  set r0 := execute_ssh_command host lsConfCmd dry_run false true true with hr0
  have hshape : r0.1 = [] ∨ r0.1 = [lsConfCmd] := by
    rw [hr0]
    unfold execute_ssh_command
    cases dry_run with
    | true => exact Or.inl rfl
    | false =>
      right
      simp only [Bool.false_eq_true, if_false]
      by_cases hc : ((host lsConfCmd).exit_status != 0 && !true) = true
      · rw [if_pos hc]
      · rw [if_neg hc]
  by_cases hf : ((match r0.2 with | .ok s => s | .error _ => "") == "") = true
  · rw [if_pos hf] at h
    rcases hshape with hs | hs <;> rw [hs] at h
    · exact absurd h.symm (by simp)
    · rcases pre with _ | ⟨e1, prer⟩
      · simp only [List.nil_append] at h
        injection h with h1 _
        exact absurd h1 (lsConfCmd_ne_destroyCmd i)
      · simp only [List.cons_append] at h
        injection h with _ h2
        exact absurd h2.symm (by simp)
  · rw [if_neg hf] at h
    rcases append_locate _ _ _ _ _ h with ⟨p2, hp1, _⟩ | ⟨p1, hp1, hp2⟩
    · rcases hshape with hs | hs <;> rw [hs] at hp1
      · exact absurd hp1.symm (by simp)
      · rcases pre with _ | ⟨e1, prer⟩
        · simp only [List.nil_append] at hp1
          injection hp1 with h1 _
          exact absurd h1 (lsConfCmd_ne_destroyCmd i)
        · simp only [List.cons_append] at hp1
          injection hp1 with _ h2
          exact absurd h2.symm (by simp)
    · obtain ⟨hj, pre2, hpre2⟩ := cleanupFold_destroy host storage_name dry_run _ p1 post i hp2
      exact ⟨hj, r0.1 ++ pre2, by rw [hp1, hpre2, List.append_assoc]⟩

/-- C2 witness: on a host with one safely-placed VM, the reclaimer issues
`ls`, `cat`, `stop`, `destroy` in order, and the theorem yields the safety
justification and the immediately-preceding stop for that destroy. -/
theorem c2_witness :
    cleanup_ram_vms hostC2 "ram" false =
      [lsConfCmd, catCmd "/etc/pve/qemu-server/100.conf", stopCmd "100"] ++
        destroyCmd "100" :: [] ∧
    ((∃ conf_path, vmIdOf conf_path = "100" ∧
        ∃ cfg, (execute_ssh_command hostC2 (catCmd conf_path)
            false false false false).2 = .ok cfg ∧
          cfg ≠ "" ∧ check_vm_safety "100" cfg "ram" = true) ∧
     ∃ pre2, [lsConfCmd, catCmd "/etc/pve/qemu-server/100.conf", stopCmd "100"] =
       pre2 ++ [stopCmd "100"]) :=
  ⟨by decide,
   c2_cleanup_destroy_requires_safety hostC2 "ram" false
     [lsConfCmd, catCmd "/etc/pve/qemu-server/100.conf", stopCmd "100"] [] "100"
     (by decide)⟩

theorem prefixCh_false_common (common : List Char) (x y : Char) (hxy : x ≠ y)
    (ps ss : List Char) : prefixCh (common ++ x :: ps) (common ++ y :: ss) = false := by
  induction common with
  | nil =>
    simp only [List.nil_append, prefixCh]
    simp [hxy]
  | cons c cs ih =>
    simp only [List.cons_append, prefixCh, beq_self_eq_true, Bool.true_and]
    exact ih

theorem prefixCh_extend_true {pat lit : List Char} (rest : List Char)
    (h : prefixCh pat lit = true) : prefixCh pat (lit ++ rest) = true := by
  obtain ⟨t, rfl⟩ := (prefixCh_iff pat lit).mp h
  exact (prefixCh_iff pat (pat ++ t ++ rest)).mpr ⟨t ++ rest, by simp⟩

theorem mountCheckCmd_data (p : String) : (mountCheckCmd p).data =
    "mount | grep \x27 ".data ++ (p.data ++ " \x27 || true".data) := by
  show ("mount | grep \x27 " ++ p ++ " \x27 || true").data = _
  rw [String.data_append, String.data_append, List.append_assoc]

theorem mkdirLayoutCmd_data (p : String) : (mkdirLayoutCmd p).data =
    "mkdir -p ".data ++ (p.data ++ "/\x7bimages,snippets,iso,dump\x7d".data) := by
  show ("mkdir -p " ++ p ++ "/\x7bimages,snippets,iso,dump\x7d").data = _
  rw [String.data_append, String.data_append, List.append_assoc]

theorem mkdirPathCmd_data (p : String) : (mkdirPathCmd p).data =
    "mkdir -p ".data ++ p.data := by
  show ("mkdir -p " ++ p).data = _
  rw [String.data_append]

theorem tmpfsMountCmd_data (p : String) (sz : Int) : (tmpfsMountCmd p sz).data =
    "mount -t tmpfs -o size=".data ++
      ((toString sz).data ++ ("G tmpfs ".data ++ p.data)) := by
  show ("mount -t tmpfs -o size=" ++ toString sz ++ "G tmpfs " ++ p).data = _
  rw [String.data_append, String.data_append, String.data_append,
    List.append_assoc, List.append_assoc]

theorem umountCmd_data (p : String) : (umountCmd p).data =
    "umount ".data ++ (p.data ++ " || true".data) := by
  show ("umount " ++ p ++ " || true").data = _
  rw [String.data_append, String.data_append, List.append_assoc]

theorem sw_mountCheck_tmpfs (p : String) :
    strStartsWith (mountCheckCmd p) "mount -t tmpfs" = false := by
  unfold strStartsWith
  rw [mountCheckCmd_data]
  exact prefixCh_false_common "mount ".data '-' '|' (by decide) "t tmpfs".data _

theorem sw_mountCheck_umount (p : String) :
    strStartsWith (mountCheckCmd p) "umount" = false := by
  unfold strStartsWith
  rw [mountCheckCmd_data]
  exact prefixCh_false_common [] 'u' 'm' (by decide) "mount".data _

theorem sw_layout_tmpfs (p : String) :
    strStartsWith (mkdirLayoutCmd p) "mount -t tmpfs" = false := by
  unfold strStartsWith
  rw [mkdirLayoutCmd_data]
  exact prefixCh_false_common ['m'] 'o' 'k' (by decide) "unt -t tmpfs".data _

theorem sw_layout_umount (p : String) :
    strStartsWith (mkdirLayoutCmd p) "umount" = false := by
  unfold strStartsWith
  rw [mkdirLayoutCmd_data]
  exact prefixCh_false_common [] 'u' 'm' (by decide) "mount".data _

theorem sw_path_tmpfs (p : String) :
    strStartsWith (mkdirPathCmd p) "mount -t tmpfs" = false := by
  unfold strStartsWith
  rw [mkdirPathCmd_data]
  exact prefixCh_false_common ['m'] 'o' 'k' (by decide) "unt -t tmpfs".data _

theorem sw_path_umount (p : String) :
    strStartsWith (mkdirPathCmd p) "umount" = false := by
  unfold strStartsWith
  rw [mkdirPathCmd_data]
  exact prefixCh_false_common [] 'u' 'm' (by decide) "mount".data _

theorem sw_tmpfs_tmpfs (p : String) (sz : Int) :
    strStartsWith (tmpfsMountCmd p sz) "mount -t tmpfs" = true := by
  unfold strStartsWith
  rw [tmpfsMountCmd_data]
  exact prefixCh_extend_true _
    (show prefixCh "mount -t tmpfs".data "mount -t tmpfs -o size=".data = true
      by decide)

theorem sw_umount_tmpfs (p : String) :
    strStartsWith (umountCmd p) "mount -t tmpfs" = false := by
  unfold strStartsWith
  rw [umountCmd_data]
  exact prefixCh_false_common [] 'm' 'u' (by decide) "ount -t tmpfs".data _

theorem sw_umount_umount (p : String) :
    strStartsWith (umountCmd p) "umount" = true := by
  unfold strStartsWith
  rw [umountCmd_data]
  exact prefixCh_extend_true _
    (show prefixCh "umount".data "umount ".data = true by decide)

theorem layout_ne_check (p : String) : mkdirLayoutCmd p ≠ mountCheckCmd p :=
  ne_of_data_common ['m'] (mkdirLayoutCmd_data p) (mountCheckCmd_data p) (by decide)

theorem path_ne_check (p : String) : mkdirPathCmd p ≠ mountCheckCmd p := by
  have hx : (mkdirPathCmd p).data = ['m'] ++ 'k' :: ("dir -p ".data ++ p.data) := by
    rw [mkdirPathCmd_data]
    rfl
  exact ne_of_data_common ['m'] hx (mountCheckCmd_data p) (by decide)

theorem tmpfs_ne_check (p : String) (sz : Int) :
    tmpfsMountCmd p sz ≠ mountCheckCmd p :=
  ne_of_data_common "mount ".data (tmpfsMountCmd_data p sz) (mountCheckCmd_data p)
    (by decide)

theorem tmpfs_ne_layout (p : String) (sz : Int) :
    tmpfsMountCmd p sz ≠ mkdirLayoutCmd p :=
  ne_of_data_common ['m'] (tmpfsMountCmd_data p sz) (mkdirLayoutCmd_data p) (by decide)

theorem umount_ne_check (p : String) : umountCmd p ≠ mountCheckCmd p :=
  ne_of_data_common [] (umountCmd_data p) (mountCheckCmd_data p) (by decide)

theorem umount_ne_layout (p : String) : umountCmd p ≠ mkdirLayoutCmd p :=
  ne_of_data_common [] (umountCmd_data p) (mkdirLayoutCmd_data p) (by decide)

theorem execute_mountHost_check (st : MountState) (p : String) (po ig lg : Bool) :
    execute_ssh_command (mountHost st p) (mountCheckCmd p) false po ig lg =
      ([mountCheckCmd p], .ok (if st.mounted then "tmpfs mounted" else "")) := by
  unfold execute_ssh_command mountHost
  cases hm : st.mounted with
  | true =>
    simp [hm, show processStdout "tmpfs mounted" = "tmpfs mounted" from by decide]
  | false =>
    simp [hm, show processStdout "" = "" from rfl]

theorem execute_mountHost_other (st : MountState) (p c : String)
    (hne : c ≠ mountCheckCmd p) (po ig lg : Bool) :
    execute_ssh_command (mountHost st p) c false po ig lg = ([c], .ok "") := by
  unfold execute_ssh_command mountHost
  simp [beq_eq_false_iff_ne.mpr hne, show processStdout "" = "" from rfl]

theorem runSeq_mountHost (st : MountState) (p : String) :
    ∀ cmds, (∀ c ∈ cmds, c ≠ mountCheckCmd p) →
      runSeq (mountHost st p) false cmds = (cmds, .ok ()) := by
  intro cmds
  induction cmds with
  | nil => intro _; rfl
  | cons c rest ih =>
    intro h
    simp only [runSeq]
    rw [execute_mountHost_other st p c (h c (List.mem_cons_self c rest)) true false true]
    simp [ih (fun d hd => h d (List.mem_cons_of_mem c hd))]

/-- A `prepare_storage` run against a mounted path with no forced remount
issues exactly the query and the layout command and succeeds. -/
theorem prepare_mounted (st : MountState) (hm : st.mounted = true) (p : String)
    (sz : Int) :
    prepare_storage (mountHost st p) p sz false false =
      ([mountCheckCmd p, mkdirLayoutCmd p], .ok ()) := by
  unfold prepare_storage
  rw [execute_mountHost_check st p false false false]
  simp [hm, show (pyStrip "tmpfs mounted" == "") = false from by decide,
    execute_mountHost_other st p (mkdirLayoutCmd p) (layout_ne_check p) true false false]

/-- A `prepare_storage` run that does not take the mounted short-circuit
issues the query, the optional unmount, the mount-point creation, the tmpfs
mount and the layout command, and succeeds. -/
theorem prepare_go_else (st : MountState) (p : String) (sz : Int) (force : Bool)
    (hcond : (st.mounted && !force) = false) :
    prepare_storage (mountHost st p) p sz false force =
      (mountCheckCmd p :: ((if force then [umountCmd p] else []) ++
        [mkdirPathCmd p, tmpfsMountCmd p sz, mkdirLayoutCmd p]), .ok ()) := by
  have hseq := runSeq_mountHost st p
    ((if force then [umountCmd p] else []) ++
      [mkdirPathCmd p, tmpfsMountCmd p sz, mkdirLayoutCmd p])
    (by
      intro c hc
      rcases List.mem_append.mp hc with hc | hc
      · cases force with
        | true =>
          simp only [if_true] at hc
          rw [List.mem_singleton.mp hc]
          exact umount_ne_check p
        | false => simp at hc
      · simp only [List.mem_cons, List.not_mem_nil, or_false] at hc
        rcases hc with rfl | rfl | rfl
        · exact path_ne_check p
        · exact tmpfs_ne_check p sz
        · exact layout_ne_check p)
  unfold prepare_storage
  rw [execute_mountHost_check st p false false false]
  cases hm : st.mounted with
  | true =>
    rw [hm] at hcond
    simp only [Bool.true_and, Bool.not_eq_false'] at hcond
    subst hcond
    simp only [if_true, List.singleton_append] at hseq ⊢
    simp [hm, show (pyStrip "tmpfs mounted" == "") = false from by decide, hseq]
  | false =>
    simp [hm, show (pyStrip "" == "") = true from rfl, hseq]

/-- C6: when the mount-listing query reports the path as mounted and
`force_remount` is false, `prepare_storage` issues exactly the query and the
four-subdirectory layout command — no umount and no tmpfs mount command.
Consequently (second conjunct, against the spec's modelled mount semantics):
after any successful call, a second consecutive call issues no tmpfs mount
and no umount command, while the layout command is issued in both calls. -/
theorem c6_prepare_storage_idempotent :
    (∀ (host : String → HostReply) (p : String) (sz : Int) (out : String),
      (execute_ssh_command host (mountCheckCmd p) false false false false).2 = .ok out →
      pyStrip out ≠ "" →
      (prepare_storage host p sz false false).1 =
        [mountCheckCmd p, mkdirLayoutCmd p]) ∧
    (∀ (m0 f1 : Bool) (p : String) (sz : Int),
      (runPrepare ⟨m0⟩ p sz f1).2.1 = .ok () ∧
      mkdirLayoutCmd p ∈ (runPrepare ⟨m0⟩ p sz f1).1 ∧
      (runPrepare (runPrepare ⟨m0⟩ p sz f1).2.2 p sz false).1 =
        [mountCheckCmd p, mkdirLayoutCmd p] ∧
      mkdirLayoutCmd p ∈ (runPrepare (runPrepare ⟨m0⟩ p sz f1).2.2 p sz false).1 ∧
      tmpfsMountCmd p sz ∉ (runPrepare (runPrepare ⟨m0⟩ p sz f1).2.2 p sz false).1 ∧
      umountCmd p ∉ (runPrepare (runPrepare ⟨m0⟩ p sz f1).2.2 p sz false).1) := by
  constructor
  · intro host p sz out hok hne
    have hfst := execute_fst host (mountCheckCmd p) false false false
    have hE : execute_ssh_command host (mountCheckCmd p) false false false false =
        ([mountCheckCmd p], .ok out) := by
      rw [← hfst, ← hok]
    unfold prepare_storage
    rw [hE]
    have hb : (pyStrip out == "") = false := beq_eq_false_iff_ne.mpr hne
    simp [hb, execute_fst host (mkdirLayoutCmd p) true false false]
  · intro m0 f1 p sz
    have hst1 : (runPrepare ⟨m0⟩ p sz f1).2.2 = ⟨true⟩ ∧
        (runPrepare ⟨m0⟩ p sz f1).2.1 = .ok () ∧
        mkdirLayoutCmd p ∈ (runPrepare ⟨m0⟩ p sz f1).1 := by
      cases m0 with
      | true =>
        cases f1 with
        | false =>
          unfold runPrepare
          rw [prepare_mounted ⟨true⟩ rfl p sz]
          refine ⟨?_, rfl, by simp⟩
          simp [applyMountCmd, sw_mountCheck_tmpfs, sw_mountCheck_umount,
            sw_layout_tmpfs, sw_layout_umount]
        | true =>
          unfold runPrepare
          rw [prepare_go_else ⟨true⟩ p sz true (by simp)]
          refine ⟨?_, rfl, by simp⟩
          simp [applyMountCmd, sw_mountCheck_tmpfs, sw_mountCheck_umount,
            sw_layout_tmpfs, sw_layout_umount, sw_path_tmpfs, sw_path_umount,
            sw_tmpfs_tmpfs, sw_umount_tmpfs, sw_umount_umount]
      | false =>
        unfold runPrepare
        rw [prepare_go_else ⟨false⟩ p sz f1 (by simp)]
        refine ⟨?_, rfl, by simp⟩
        cases f1 with
        | true =>
          simp [applyMountCmd, sw_mountCheck_tmpfs, sw_mountCheck_umount,
            sw_layout_tmpfs, sw_layout_umount, sw_path_tmpfs, sw_path_umount,
            sw_tmpfs_tmpfs, sw_umount_tmpfs, sw_umount_umount]
        | false =>
          simp [applyMountCmd, sw_mountCheck_tmpfs, sw_mountCheck_umount,
            sw_layout_tmpfs, sw_layout_umount, sw_path_tmpfs, sw_path_umount,
            sw_tmpfs_tmpfs]
    obtain ⟨h1, h2, h3⟩ := hst1
    rw [h1]
    have hrun2 : (runPrepare ⟨true⟩ p sz false).1 =
        [mountCheckCmd p, mkdirLayoutCmd p] := by
      unfold runPrepare
      rw [prepare_mounted ⟨true⟩ rfl p sz]
    refine ⟨h2, h3, hrun2, ?_, ?_, ?_⟩
    · rw [hrun2]; simp
    · rw [hrun2]
      simp [tmpfs_ne_check p sz, tmpfs_ne_layout p sz]
    · rw [hrun2]
      simp [umount_ne_check p, umount_ne_layout p]

/-- C6 witness: a host reporting the path mounted makes `prepare_storage`
issue only the query and the layout command. -/
theorem c6_witness :
    (prepare_storage (mountHost ⟨true⟩ "/mnt/ram_test") "/mnt/ram_test" 16 false false).1 =
      [mountCheckCmd "/mnt/ram_test", mkdirLayoutCmd "/mnt/ram_test"] :=
  c6_prepare_storage_idempotent.1 (mountHost ⟨true⟩ "/mnt/ram_test") "/mnt/ram_test"
    16 "tmpfs mounted" (by decide) (by decide)

theorem findIpAddrs_eq (addrs : List GuestAddress) :
    findIpAddrs addrs =
      ((addrs.filter fun a =>
        a.ip_address_type == "ipv4" && strStartsWith a.ip_address "10.").map
        fun a => a.ip_address).head? := by
  induction addrs with
  | nil => rfl
  | cons a rest ih =>
    by_cases ht : (a.ip_address_type == "ipv4") = true
    · by_cases hs : strStartsWith a.ip_address "10." = true
      · simp [findIpAddrs, ht, hs, List.filter_cons]
      · simp [findIpAddrs, ht, hs, List.filter_cons, ih]
    · simp [findIpAddrs, ht, List.filter_cons, ih]

theorem findIp_eq (data : List GuestInterface) :
    findIp data = (qualifyingIps data).head? := by
  induction data with
  | nil => rfl
  | cons i rest ih =>
    by_cases hlo : (i.name == some "lo") = true
    · simp [findIp, hlo, qualifyingIps, List.filter_cons] at ih ⊢
      exact ih
    · simp only [findIp, hlo, if_false, Bool.false_eq_true]
      rw [findIpAddrs_eq]
      simp only [qualifyingIps, List.filter_cons, hlo, Bool.not_false,
        List.flatMap_cons] at ih ⊢
      cases hq : ((i.ip_addresses.filter fun a =>
          a.ip_address_type == "ipv4" && strStartsWith a.ip_address "10.").map
          fun a => a.ip_address) with
      | nil => simpa [hq] using ih
      | cons x xs => simp [hq]

theorem findIpAddrs_some {addrs : List GuestAddress} {ip : String}
    (h : findIpAddrs addrs = some ip) :
    ∃ a ∈ addrs, a.ip_address_type = "ipv4" ∧ a.ip_address = ip ∧
      strStartsWith ip "10." = true := by
  induction addrs with
  | nil => cases h
  | cons a rest ih =>
    by_cases ht : (a.ip_address_type == "ipv4") = true
    · by_cases hs : strStartsWith a.ip_address "10." = true
      · rw [findIpAddrs, if_pos ht, if_pos hs] at h
        injection h with h2
        exact ⟨a, List.mem_cons_self a rest, by simpa using ht, h2, h2 ▸ hs⟩
      · rw [findIpAddrs, if_pos ht, if_neg hs] at h
        obtain ⟨b, hb, h1, h2, h3⟩ := ih h
        exact ⟨b, List.mem_cons_of_mem a hb, h1, h2, h3⟩
    · rw [findIpAddrs, if_neg ht] at h
      obtain ⟨b, hb, h1, h2, h3⟩ := ih h
      exact ⟨b, List.mem_cons_of_mem a hb, h1, h2, h3⟩

theorem findIp_some {data : List GuestInterface} {ip : String}
    (h : findIp data = some ip) :
    ∃ i ∈ data, i.name ≠ some "lo" ∧
      ∃ a ∈ i.ip_addresses, a.ip_address_type = "ipv4" ∧ a.ip_address = ip ∧
        strStartsWith ip "10." = true := by
  induction data with
  | nil => cases h
  | cons i rest ih =>
    by_cases hlo : (i.name == some "lo") = true
    · rw [findIp, if_pos hlo] at h
      obtain ⟨j, hj, h1, h2⟩ := ih h
      exact ⟨j, List.mem_cons_of_mem i hj, h1, h2⟩
    · rw [findIp, if_neg hlo] at h
      cases hf : findIpAddrs i.ip_addresses with
      | some ip2 =>
        rw [hf] at h
        injection h with h2
        subst h2
        obtain ⟨a, ha, h1, h2, h3⟩ := findIpAddrs_some hf
        exact ⟨i, List.mem_cons_self i rest, by simpa using hlo, a, ha, h1, h2, h3⟩
      | none =>
        rw [hf] at h
        obtain ⟨j, hj, h1, h2⟩ := ih h
        exact ⟨j, List.mem_cons_of_mem i hj, h1, h2⟩

theorem waitLoop_none (polls : Nat → Option (List GuestInterface)) (timeout : Int)
    (hall : ∀ j d, polls j = some d → findIp d = none) :
    ∀ fuel k, (waitLoop polls false timeout fuel k).1 = none := by
  intro fuel
  induction fuel with
  | zero => intro k; rfl
  | succ f ih =>
    intro k
    simp only [waitLoop, Bool.false_eq_true, if_false]
    by_cases hg : (3 * k : Int) < timeout
    · rw [if_pos hg]
      cases hp : polls k with
      | none => exact ih (k + 1)
      | some d =>
        simp only [hall k d hp]
        exact ih (k + 1)
    · rw [if_neg hg]

theorem waitLoop_some (polls : Nat → Option (List GuestInterface)) (timeout : Int) :
    ∀ fuel k ip, (waitLoop polls false timeout fuel k).1 = some ip →
      ∃ j data, k ≤ j ∧ (3 * j : Int) < timeout ∧ polls j = some data ∧
        findIp data = some ip ∧
        (∀ m d, k ≤ m → m < j → polls m = some d → findIp d = none) ∧
        (waitLoop polls false timeout fuel k).2 = j + 1 := by
  intro fuel
  induction fuel with
  | zero => intro k ip h; cases h
  | succ f ih =>
    intro k ip h
    simp only [waitLoop, Bool.false_eq_true, if_false] at h ⊢
    by_cases hg : (3 * k : Int) < timeout
    · rw [if_pos hg] at h ⊢
      cases hp : polls k with
      | none =>
        rw [hp] at h
        obtain ⟨j, data, hkj, hjg, hpj, hfj, hint, hcnt⟩ := ih (k + 1) ip h
        refine ⟨j, data, by omega, hjg, hpj, hfj, ?_, hcnt⟩
        intro m d hm1 hm2 hpm
        rcases Nat.eq_or_lt_of_le hm1 with rfl | hm3
        · rw [hp] at hpm; cases hpm
        · exact hint m d hm3 hm2 hpm
      | some d =>
        rw [hp] at h
        cases hf : findIp d with
        | some ip2 =>
          simp only [hf] at h
          injection h with h2
          subst h2
          refine ⟨k, d, Nat.le_refl k, hg, hp, hf, ?_, ?_⟩
          · intro m d2 h1 h2 _
            omega
          · simp only [hf]
        | none =>
          simp only [hf] at h
          obtain ⟨j, data, hkj, hjg, hpj, hfj, hint, hcnt⟩ := ih (k + 1) ip h
          refine ⟨j, data, by omega, hjg, hpj, hfj, ?_, by simp only [hf]; exact hcnt⟩
          intro m d2 hm1 hm2 hpm
          rcases Nat.eq_or_lt_of_le hm1 with rfl | hm3
          · rw [hp] at hpm
            injection hpm with h3
            exact h3 ▸ hf
          · exact hint m d2 hm3 hm2 hpm
    · rw [if_neg hg] at h
      cases h

/-- C7 counterexample: with a zero timeout the loop guard fails before the
dry-run short-circuit inside the loop body is reached, so `wait_for_ip` in
dry-run mode returns `none` instead of the sentinel (and issues no poll). -/
theorem c7_counterexample :
    wait_for_ip noPolls true 0 = (none, 0) ∧
    wait_for_ip noPolls true 0 ≠ (some "10.DRY.RUN.IP", 0) := by
  constructor
  · rfl
  · intro h
    cases h

/-- C7 amended: for every positive timeout, `wait_for_ip` with `dry_run` set
returns the fixed sentinel address immediately, without issuing any
guest-agent poll (poll count 0). -/
theorem c7_wait_for_ip_dry_run (polls : Nat → Option (List GuestInterface))
    (timeout : Int) (h : 1 ≤ timeout) :
    wait_for_ip polls true timeout = (some "10.DRY.RUN.IP", 0) := by
  have h1 : 1 ≤ timeout.toNat := by omega
  unfold wait_for_ip
  cases hn : timeout.toNat with
  | zero => omega
  | succ f =>
    simp only [waitLoop, if_true]
    rw [if_pos (by push_cast; omega)]

/-- C7 amended, witness: at the default timeout of 60 the sentinel is
returned with zero polls issued. -/
theorem c7_wait_for_ip_dry_run_witness :
    wait_for_ip noPolls true 60 = (some "10.DRY.RUN.IP", 0) :=
  c7_wait_for_ip_dry_run noPolls 60 (by decide)

/-- C8: in every non-dry-run call of `wait_for_ip`, a non-null result is an
IPv4 address string from a non-loopback interface record, starts with `10.`,
is the first qualifying address of the first poll that has one, and is
returned immediately (one more poll than the failed ones before it); and if
no qualifying address appears in any poll, the result is null. -/
theorem c8_wait_for_ip_found (polls : Nat → Option (List GuestInterface))
    (timeout : Int) :
    (∀ ip, (wait_for_ip polls false timeout).1 = some ip →
      ∃ (k : Nat) (data : List GuestInterface),
        (3 * k : Int) < timeout ∧ polls k = some data ∧
        (∃ iface ∈ data, iface.name ≠ some "lo" ∧
          ∃ addr ∈ iface.ip_addresses,
            addr.ip_address_type = "ipv4" ∧ addr.ip_address = ip) ∧
        strStartsWith ip "10." = true ∧
        (qualifyingIps data).head? = some ip ∧
        (∀ (m : Nat) (d : List GuestInterface),
          m < k → polls m = some d → qualifyingIps d = []) ∧
        (wait_for_ip polls false timeout).2 = k + 1) ∧
    ((∀ k data, polls k = some data → qualifyingIps data = []) →
      (wait_for_ip polls false timeout).1 = none) := by
  constructor
  · intro ip h
    obtain ⟨j, data, _, hjg, hpj, hfj, hint, hcnt⟩ :=
      waitLoop_some polls timeout timeout.toNat 0 ip h
    obtain ⟨iface, hif, hname, addr, haddr, h1, h2, h3⟩ := findIp_some hfj
    refine ⟨j, data, hjg, hpj, ⟨iface, hif, hname, addr, haddr, h1, h2⟩, h3, ?_, ?_, hcnt⟩
    · rw [← findIp_eq]; exact hfj
    · intro m d hm hpm
      have := hint m d (Nat.zero_le m) hm hpm
      rw [findIp_eq] at this
      exact List.head?_eq_none_iff.mp this
  · intro hall
    refine waitLoop_none polls timeout ?_ timeout.toNat 0
    intro j d hp
    rw [findIp_eq, hall j d hp]
    rfl

/-- C8 witness: the null branch applied to the never-answering oracle. -/
theorem c8_wait_for_ip_found_witness :
    (wait_for_ip noPolls false 6).1 = none :=
  (c8_wait_for_ip_found noPolls 6).2 (by intro k d h; cases h)

/-- C9: on a node entry that has only `host` set, the validating
`infra/config.py, get_node_params` raises a ValueError enumerating exactly
the missing keys before any remote action (it is a pure function), while the
duplicated `infra/deploy.py, get_node_params` — the one `deploy_vm` calls —
returns hardcoded defaults and raises nothing, contradicting the claim, the
spec's configuration contract and the repository's own
tests/test_config_no_hardcode.py (which forbids exactly these `.get`
defaults in `infra/`). -/
theorem c9_get_node_params_divergence :
    config_get_node_params id "n" [("n", confOnlyHost)] =
      .error ("Node \x27n\x27 missing required parameters: " ++
        "[\x27user\x27, \x27key_path\x27, \x27storage\x27, \x27storage_path\x27]" ++
        ". Please add them to config.yaml") ∧
    deploy_get_node_params id "n" [("n", confOnlyHost)] =
      .ok ⟨some "1.2.3.4", "root", "~/.ssh/id_rsa", "ram"⟩ := by
  constructor
  · rfl
  · rfl

/-- A command whose reply has exit status zero executes successfully under
deploy.py's execute copy. -/
theorem deploy_execute_ok (host : String → HostReply) (c : String)
    (po ig : Bool) (h : (host c).exit_status = 0) :
    deploy_execute_ssh_command host c false po ig =
      ([c], .ok (pyStrip (host c).stdout)) := by
  unfold deploy_execute_ssh_command
  simp [h]

/-- C4: a non-dry deployment run reaching the storage-preparation step issues
the legacy bash script command (`source /root/.bashrc && purge_vm_disks &&
./ramstor.sh`) and issues none of the commands `prepare_storage` would issue
for the node's configured mount path `/mnt/ram_test` and RAM size 42 — no
mount query, no tmpfs mount, no layout mkdir: the `{CLEAN | CONFLICT_RESOLVED}
→ STORAGE_READY` transition is not performed by invoking `prepare_storage`,
contradicting tests/test_deploy.py, which asserts `prepare_storage` is called
once with those arguments. -/
theorem c4_deploy_uses_bash_script :
    (deploy_vm id [("r", fullConf)] "r" 100 200 2048 "snap1" false true
        envAllOk).2 = .record 200 none ∧
    setupCmd ∈ (deploy_vm id [("r", fullConf)] "r" 100 200 2048 "snap1" false true
        envAllOk).1 ∧
    mountCheckCmd "/mnt/ram_test" ∉ (deploy_vm id [("r", fullConf)] "r" 100 200
        2048 "snap1" false true envAllOk).1 ∧
    tmpfsMountCmd "/mnt/ram_test" 42 ∉ (deploy_vm id [("r", fullConf)] "r" 100 200
        2048 "snap1" false true envAllOk).1 ∧
    mkdirLayoutCmd "/mnt/ram_test" ∉ (deploy_vm id [("r", fullConf)] "r" 100 200
        2048 "snap1" false true envAllOk).1 ∧
    (∀ c ∈ (deploy_vm id [("r", fullConf)] "r" 100 200 2048 "snap1" false true
        envAllOk).1,
      strStartsWith c "mount" = false ∧ strStartsWith c "umount" = false ∧
        strStartsWith c "mkdir" = false) := by
  decide

/-- C5 counterexample: with the VM existing, no force flag and the answer
`n`, the run terminates via the bare `return` — Python `None` — and not via
a result record with a null ip, as the claim states. -/
theorem c5_counterexample :
    (deploy_vm id [("r", fullConf)] "r" 100 200 2048 "snap1" false false
        envAbort).2 = .none_result ∧
    (deploy_vm id [("r", fullConf)] "r" 100 200 2048 "snap1" false false
        envAbort).2 ≠ .record 200 none := by
  decide

/-- C5 amended: a run whose node resolves, with the VM present: answering the
prompt negatively returns early with Python `None` (no record) and without
raising; and a forced run on a cooperating host whose guest agent never
reports a qualifying address terminates with the record `{id, ip = null}`. -/
theorem c5_deploy_null_ip (expanduser : String → String)
    (nodes : List (String × NodeConf)) (node : String)
    (tid nid mem : Int) (snap : String) (env : DeployEnv) (q : DeployNodeParams) :
    (deploy_get_node_params expanduser node nodes = .ok q →
     q.host ≠ none →
     (env.host (qmStatusCmd nid)).exit_status = 0 →
     pyLower env.answer ≠ "y" →
     (deploy_vm expanduser nodes node tid nid mem snap false false env).2 =
       .none_result) ∧
    (deploy_get_node_params expanduser node nodes = .ok q →
     q.host ≠ none →
     (∀ c, (env.host c).exit_status = 0) →
     (∀ k d, env.polls k = some d → qualifyingIps d = []) →
     (deploy_vm expanduser nodes node tid nid mem snap false true env).2 =
       .record nid none) := by
  constructor
  · intro hq hhost hstat hans
    unfold deploy_vm
    rw [hq]
    simp only [Bool.not_false, Bool.true_and, beq_eq_false_iff_ne.mpr hhost,
      Bool.false_eq_true, if_false]
    rw [deploy_execute_ok env.host (qmStatusCmd nid) false true hstat]
    rw [deploy_execute_ok env.host (qmStatusCmd nid) false false hstat]
    simp [beq_eq_false_iff_ne.mpr hans]
  · intro hq hhost hstat hpolls
    unfold deploy_vm
    rw [hq]
    simp only [Bool.not_false, Bool.true_and, beq_eq_false_iff_ne.mpr hhost,
      Bool.false_eq_true, if_false]
    rw [deploy_execute_ok env.host (qmStatusCmd nid) false true (hstat _)]
    rw [deploy_execute_ok env.host (qmStatusCmd nid) false false (hstat _)]
    rw [deploy_execute_ok env.host (stopCmd (toString nid)) false true (hstat _)]
    rw [deploy_execute_ok env.host setupCmd true false (hstat _)]
    rw [deploy_execute_ok env.host
      (cloneCmd tid nid snap q.storage mem) true false (hstat _)]
    rw [deploy_execute_ok env.host (startCmd nid) true false (hstat _)]
    have hw : (deploy_wait_for_ip env.polls false 60).1 = none := by
      unfold deploy_wait_for_ip wait_for_ip
      refine waitLoop_none env.polls 60 ?_ _ 0
      intro j d hp
      rw [findIp_eq, hpolls j d hp]
      rfl
    simp [hw]

/-- C5 amended, witness: the forced cooperative run produces the record with
the null ip. -/
theorem c5_deploy_null_ip_witness :
    (deploy_vm id [("r", fullConf)] "r" 100 200 2048 "snap1" false true
        envAllOk).2 = .record 200 none :=
  (c5_deploy_null_ip id [("r", fullConf)] "r" 100 200 2048 "snap1" envAllOk
      ⟨some "1.2.3.4", "root", "~/.ssh/id_rsa", "ram"⟩).2
    (by rfl) (by intro h; cases h) (fun _ => rfl) (by intro k d h; cases h)

end Cpro
